import Mathlib

/-!
Verification of the dual-agent orchestrator core (src/orchestrator.py,
src/agent_runtime.py, src/state_io.py) against its specification.

The Python functions are shallowly embedded as executable Lean definitions:
strings are `String`/`List Char`, Python `int` is `Int`, fallible paths are
`Option`/`Except`, and the regex-based marker extraction is embedded as a
deterministic scanner that realises the exact matching semantics of the
concrete patterns used by the source (leftmost, non-overlapping matches;
greedy character-class runs; non-greedy groups; MULTILINE anchors that treat
only the LF character as a line boundary; IGNORECASE on ASCII letters).
Whitespace classes model Python's whitespace set; character classes such as
letters and digits are modelled on their ASCII range, which covers the
orchestrator's ASCII marker protocol.
-/

namespace DualOrch

/-- ASCII lower-casing, modelling Python case-insensitive matching and
`str.lower()`/`str.upper()` on the ASCII marker vocabulary. -/
def asciiLower (c : Char) : Char :=
  if 'A' ≤ c ∧ c ≤ 'Z' then Char.ofNat (c.toNat + 32) else c

/-- ASCII upper-casing (Python `str.upper()` on ASCII text). -/
def asciiUpper (c : Char) : Char :=
  if 'a' ≤ c ∧ c ≤ 'z' then Char.ofNat (c.toNat - 32) else c

/-- Python whitespace (the `\s` class of the `re` module and the default
`str.strip()` set): ASCII whitespace, the information separators, NEL,
NBSP and the Unicode space separators. -/
def isPySpace (c : Char) : Bool :=
  let n := c.toNat
  decide (n = 32 ∨ (9 ≤ n ∧ n ≤ 13) ∨ (28 ≤ n ∧ n ≤ 31) ∨ n = 0x85 ∨
    n = 0xA0 ∨ n = 0x1680 ∨ (0x2000 ≤ n ∧ n ≤ 0x200A) ∨ n = 0x2028 ∨
    n = 0x2029 ∨ n = 0x202F ∨ n = 0x205F ∨ n = 0x3000)

/-- Characters of the `[A-Z_]` class under `re.IGNORECASE` (ASCII letters and
underscore), used by the delimiter-label pattern. -/
def isLabelChar (c : Char) : Bool :=
  decide (('A' ≤ c ∧ c ≤ 'Z') ∨ ('a' ≤ c ∧ c ≤ 'z') ∨ c = '_')

/-- Characters of the `[A-Za-z0-9_-]` class used by the finding-id groups of
the FINDING_STATUS and NEW_FINDING patterns. -/
def isIdentChar (c : Char) : Bool :=
  decide (('A' ≤ c ∧ c ≤ 'Z') ∨ ('a' ≤ c ∧ c ≤ 'z') ∨ ('0' ≤ c ∧ c ≤ '9') ∨
    c = '_' ∨ c = '-')

/-- Drop the maximal run of Python whitespace, realising a greedy `\s*`
whose follower starts with a non-whitespace character. -/
def dropPyWs : List Char → List Char
  | [] => []
  | c :: cs => if isPySpace c then dropPyWs cs else c :: cs

/-- Match a literal character sequence, returning the remainder. -/
def expectChars : List Char → List Char → Option (List Char)
  | [], l => some l
  | _ :: _, [] => none
  | p :: ps, c :: cs => if c = p then expectChars ps cs else none

/-- Match a literal sequence case-insensitively (the pattern is given in
lowercase), returning the remainder. -/
def expectCharsCI : List Char → List Char → Option (List Char)
  | [], l => some l
  | _ :: _, [] => none
  | p :: ps, c :: cs => if asciiLower c = p then expectCharsCI ps cs else none

theorem dropPyWs_length_le : ∀ l : List Char, (dropPyWs l).length ≤ l.length := by
  intro l
  induction l with
  | nil => simp [dropPyWs]
  | cons c cs ih =>
    simp only [dropPyWs]
    split
    · exact Nat.le_succ_of_le ih
    · simp

theorem dropWhileChars_length_le (p : Char → Bool) :
    ∀ l : List Char, (l.dropWhile p).length ≤ l.length := by
  intro l
  induction l with
  | nil => simp
  | cons c cs ih =>
    simp only [List.dropWhile]
    split
    · exact Nat.le_succ_of_le ih
    · simp

theorem expectChars_length {p l r : List Char} (h : expectChars p l = some r) :
    r.length + p.length = l.length := by
  induction p generalizing l with
  | nil => simp [expectChars] at h; simp [h]
  | cons x xs ih =>
    cases l with
    | nil => simp [expectChars] at h
    | cons c cs =>
      simp only [expectChars] at h
      split at h
      · have := ih h
        simp only [List.length_cons]
        omega
      · exact absurd h (by simp)

theorem expectCharsCI_length {p l r : List Char} (h : expectCharsCI p l = some r) :
    r.length + p.length = l.length := by
  induction p generalizing l with
  | nil => simp [expectCharsCI] at h; simp [h]
  | cons x xs ih =>
    cases l with
    | nil => simp [expectCharsCI] at h
    | cons c cs =>
      simp only [expectCharsCI] at h
      split at h
      · have := ih h
        simp only [List.length_cons]
        omega
      · exact absurd h (by simp)

/-- Match of the echoed-block pattern head `<<<\s*([A-Z_]+)_BEGIN\s*>>>`:
the label run is the maximal `[A-Z_]` run (its followers are disjoint from
the class, so regex backtracking cannot shorten it) and must decompose as a
non-empty group followed by the literal `_BEGIN`.  Returns the lower-cased
captured group and the remainder. -/
def matchBeginMarker (l : List Char) : Option (List Char × List Char) :=
  match expectChars ['<', '<', '<'] l with
  | none => none
  | some l1 =>
    let l2 := dropPyWs l1
    let lrun := (l2.takeWhile isLabelChar).map asciiLower
    let l3 := l2.dropWhile isLabelChar
    if 7 ≤ lrun.length ∧ lrun.drop (lrun.length - 6) = ['_', 'b', 'e', 'g', 'i', 'n'] then
      match expectChars ['>', '>', '>'] (dropPyWs l3) with
      | none => none
      | some l4 => some (lrun.take (lrun.length - 6), l4)
    else none

/-- Match of the closing pattern `<<<\s*\1_END\s*>>>` for a captured label
(the back-reference is matched case-insensitively under `re.IGNORECASE`). -/
def matchEndMarker (label : List Char) (l : List Char) : Option (List Char) :=
  match expectChars ['<', '<', '<'] l with
  | none => none
  | some l1 =>
    match expectCharsCI (label ++ ['_', 'e', 'n', 'd']) (dropPyWs l1) with
    | none => none
    | some l2 => expectChars ['>', '>', '>'] (dropPyWs l2)

/-- Non-greedy `.*?` search (DOTALL): the earliest position at which the
closing marker matches wins; returns the remainder after it. -/
def findEndMarker (label : List Char) : List Char → Option (List Char)
  | [] => none
  | c :: cs =>
    match matchEndMarker label (c :: cs) with
    | some r => some r
    | none => findEndMarker label cs

/-- Attempt to match one full delimited section
`<<<\s*([A-Z_]+)_BEGIN\s*>>>.*?<<<\s*\1_END\s*>>>` at the head of the input. -/
def tryDelimited (l : List Char) : Option (List Char) :=
  match matchBeginMarker l with
  | none => none
  | some (label, r) => findEndMarker label r

/-- One pass of `DELIMITED_SECTION_PATTERN.sub("", text)`: scan left to
right, removing each non-overlapping leftmost match and continuing after it.
The fuel argument (instantiated with the input length, which always
suffices) makes the recursion structural. -/
def stripGo : Nat → List Char → List Char
  | 0, l => l
  | _ + 1, [] => []
  | fuel + 1, c :: cs =>
    match tryDelimited (c :: cs) with
    | some rest => stripGo fuel rest
    | none => c :: stripGo fuel cs

/-- Embedding of `strip_delimited_sections` (orchestrator.py): remove every
substring matching `DELIMITED_SECTION_PATTERN`. -/
def strip_delimited_sections (s : String) : String :=
  ⟨stripGo s.data.length s.data⟩

theorem matchBeginMarker_length {l lab r : List Char}
    (h : matchBeginMarker l = some (lab, r)) : r.length < l.length := by
  unfold matchBeginMarker at h
  cases h1 : expectChars ['<', '<', '<'] l with
  | none => rw [h1] at h; exact absurd h (by simp)
  | some l1 =>
    rw [h1] at h
    have hl1 : l1.length + 3 = l.length := expectChars_length h1
    simp only at h
    split at h
    · rename_i hcond
      cases h2 : expectChars ['>', '>', '>'] (dropPyWs ((dropPyWs l1).dropWhile isLabelChar)) with
      | none => rw [h2] at h; exact absurd h (by simp)
      | some l4 =>
        rw [h2] at h
        simp only [Option.some.injEq, Prod.mk.injEq] at h
        have h4 : l4.length + 3 = (dropPyWs ((dropPyWs l1).dropWhile isLabelChar)).length :=
          expectChars_length h2
        have d1 : (dropPyWs ((dropPyWs l1).dropWhile isLabelChar)).length ≤
            ((dropPyWs l1).dropWhile isLabelChar).length := dropPyWs_length_le _
        have d2 : ((dropPyWs l1).dropWhile isLabelChar).length ≤ (dropPyWs l1).length :=
          dropWhileChars_length_le _ _
        have d3 : (dropPyWs l1).length ≤ l1.length := dropPyWs_length_le _
        have : r.length = l4.length := by rw [← h.2]
        omega
    · exact absurd h (by simp)

theorem matchEndMarker_length {label l r : List Char}
    (h : matchEndMarker label l = some r) : r.length < l.length := by
  unfold matchEndMarker at h
  cases h1 : expectChars ['<', '<', '<'] l with
  | none => rw [h1] at h; exact absurd h (by simp)
  | some l1 =>
    rw [h1] at h
    have hl1 : l1.length + 3 = l.length := expectChars_length h1
    simp only at h
    cases h2 : expectCharsCI (label ++ ['_', 'e', 'n', 'd']) (dropPyWs l1) with
    | none => rw [h2] at h; exact absurd h (by simp)
    | some l2 =>
      rw [h2] at h
      have hl2 : l2.length + (label ++ ['_', 'e', 'n', 'd']).length = (dropPyWs l1).length :=
        expectCharsCI_length h2
      have h3 : r.length + 3 = (dropPyWs l2).length := expectChars_length h
      have d1 : (dropPyWs l1).length ≤ l1.length := dropPyWs_length_le _
      have d2 : (dropPyWs l2).length ≤ l2.length := dropPyWs_length_le _
      simp only [List.length_append, List.length_cons, List.length_nil] at hl2
      omega

theorem findEndMarker_length {label : List Char} :
    ∀ {l r : List Char}, findEndMarker label l = some r → r.length ≤ l.length := by
  intro l
  induction l with
  | nil => intro r h; simp [findEndMarker] at h
  | cons c cs ih =>
    intro r h
    simp only [findEndMarker] at h
    cases h1 : matchEndMarker label (c :: cs) with
    | some r2 =>
      rw [h1] at h
      simp only [Option.some.injEq] at h
      subst h
      exact Nat.le_of_lt (matchEndMarker_length h1)
    | none =>
      rw [h1] at h
      exact Nat.le_trans (ih h) (Nat.le_succ _)

theorem tryDelimited_length {l r : List Char} (h : tryDelimited l = some r) :
    r.length < l.length := by
  unfold tryDelimited at h
  cases h1 : matchBeginMarker l with
  | none => rw [h1] at h; exact absurd h (by simp)
  | some p =>
    rw [h1] at h
    exact Nat.lt_of_le_of_lt (findEndMarker_length h) (matchBeginMarker_length h1)

/-- Fuel irrelevance for the substitution pass: any fuel at least the input
length computes the same result. -/
theorem stripGo_fuel : ∀ (f₁ f₂ : Nat) (l : List Char),
    l.length ≤ f₁ → l.length ≤ f₂ → stripGo f₁ l = stripGo f₂ l := by
  intro f₁
  induction f₁ with
  | zero =>
    intro f₂ l h1 _
    have : l = [] := List.eq_nil_of_length_eq_zero (Nat.le_zero.mp h1)
    subst this
    cases f₂ <;> simp [stripGo]
  | succ f ih =>
    intro f₂ l h1 h2
    cases l with
    | nil => cases f₂ <;> simp [stripGo]
    | cons c cs =>
      cases f₂ with
      | zero => exact absurd h2 (by simp)
      | succ g =>
        simp only [stripGo]
        cases h3 : tryDelimited (c :: cs) with
        | some rest =>
          have hr := tryDelimited_length h3
          simp only [List.length_cons] at hr h1 h2
          exact ih g rest (by omega) (by omega)
        | none =>
          simp only [List.length_cons] at h1 h2
          rw [ih g cs (by omega) (by omega)]

/-- Greedy trailing `\s*$` under MULTILINE: consume the longest whitespace
prefix after which the position is the end of input or immediately before an
LF.  Returns whether the last consumed character was an LF (so the caller
knows whether the continuation position starts a new line) and the
remainder; fails when no such position is reachable. -/
def trailEnd (lastNl : Bool) : List Char → Option (Bool × List Char)
  | [] => some (lastNl, [])
  | c :: cs =>
    if c = '\n' then
      match trailEnd true cs with
      | some r => some r
      | none => some (lastNl, c :: cs)
    else if isPySpace c then trailEnd false cs
    else none

theorem trailEnd_length : ∀ {b : Bool} {l : List Char} {r : Bool × List Char},
    trailEnd b l = some r → r.2.length ≤ l.length := by
  intro b l
  induction l generalizing b with
  | nil =>
    intro r h
    simp only [trailEnd, Option.some.injEq] at h
    simp [← h]
  | cons c cs ih =>
    intro r h
    simp only [trailEnd] at h
    split at h
    · cases h2 : trailEnd true cs with
      | some r2 =>
        rw [h2] at h
        simp only [Option.some.injEq] at h
        subst h
        exact Nat.le_succ_of_le (ih h2)
      | none =>
        rw [h2] at h
        simp only [Option.some.injEq] at h
        simp [← h]
    · split at h
      · exact Nat.le_succ_of_le (ih h)
      · exact absurd h (by simp)

/-- Match of `^\s*KEY\s*:\s*(YES|NO)\s*$` at a MULTILINE anchor position
(the key is given as lowercase characters; `re.escape` makes it literal).
Each greedy `\s*` here is safe maximal munch because its follower starts
with a non-whitespace character.  Returns the captured value
(`true` for YES), the line-start status of the continuation position, and
the remainder after the match. -/
def matchFlagAt (key : List Char) (l : List Char) : Option (Bool × Bool × List Char) :=
  match expectCharsCI key (dropPyWs l) with
  | none => none
  | some l1 =>
    match expectChars [':'] (dropPyWs l1) with
    | none => none
    | some l2 =>
      let l3 := dropPyWs l2
      match expectCharsCI ['y', 'e', 's'] l3 with
      | some l4 =>
        match trailEnd false l4 with
        | some (nl, r) => some (true, nl, r)
        | none => none
      | none =>
        match expectCharsCI ['n', 'o'] l3 with
        | some l4 =>
          match trailEnd false l4 with
          | some (nl, r) => some (false, nl, r)
          | none => none
        | none => none

theorem matchFlagAt_length {key l : List Char} {v nl : Bool} {r : List Char}
    (h : matchFlagAt key l = some (v, nl, r)) : r.length < l.length := by
  unfold matchFlagAt at h
  cases h1 : expectCharsCI key (dropPyWs l) with
  | none => rw [h1] at h; exact absurd h (by simp)
  | some l1 =>
    rw [h1] at h
    simp only at h
    cases h2 : expectChars [':'] (dropPyWs l1) with
    | none => rw [h2] at h; exact absurd h (by simp)
    | some l2 =>
      rw [h2] at h
      simp only at h
      have e1 : l1.length + key.length = (dropPyWs l).length := expectCharsCI_length h1
      have e2 : l2.length + 1 = (dropPyWs l1).length := by
        have := expectChars_length h2
        simpa using this
      have d0 : (dropPyWs l).length ≤ l.length := dropPyWs_length_le _
      have d1 : (dropPyWs l1).length ≤ l1.length := dropPyWs_length_le _
      have d2 : (dropPyWs l2).length ≤ l2.length := dropPyWs_length_le _
      have main : r.length ≤ (dropPyWs l2).length := by
        cases h3 : expectCharsCI ['y', 'e', 's'] (dropPyWs l2) with
        | some l4 =>
          rw [h3] at h
          simp only at h
          cases h4 : trailEnd false l4 with
          | some p =>
            rw [h4] at h
            simp only [Option.some.injEq, Prod.mk.injEq] at h
            have e3 : l4.length + 3 = (dropPyWs l2).length := by
              have := expectCharsCI_length h3
              simpa using this
            have ht := trailEnd_length h4
            have hr : r = p.2 := h.2.2.symm
            subst hr
            omega
          | none => rw [h4] at h; exact absurd h (by simp)
        | none =>
          rw [h3] at h
          simp only at h
          cases h5 : expectCharsCI ['n', 'o'] (dropPyWs l2) with
          | none => rw [h5] at h; exact absurd h (by simp)
          | some l4 =>
            rw [h5] at h
            simp only at h
            cases h4 : trailEnd false l4 with
            | some p =>
              rw [h4] at h
              simp only [Option.some.injEq, Prod.mk.injEq] at h
              have e3 : l4.length + 2 = (dropPyWs l2).length := by
                have := expectCharsCI_length h5
                simpa using this
              have ht := trailEnd_length h4
              have hr : r = p.2 := h.2.2.symm
              subst hr
              omega
            | none => rw [h4] at h; exact absurd h (by simp)
      omega

/-- The `finditer` loop over MULTILINE anchor positions: at each line start
try the given anchored matcher; on success record its value and continue
after the (non-overlapping) match, otherwise advance one character.  The
fuel argument (instantiated with the input length) makes the recursion
structural. -/
def scanMatches {α : Type} (f : List Char → Option (α × Bool × List Char)) :
    Nat → Bool → List Char → List α
  | 0, _, _ => []
  | _ + 1, _, [] => []
  | fuel + 1, atLS, c :: cs =>
    if atLS then
      match f (c :: cs) with
      | some (v, nl, rest) => v :: scanMatches f fuel nl rest
      | none => scanMatches f fuel (c = '\n') cs
    else
      scanMatches f fuel (c = '\n') cs

/-- Fuel irrelevance for the scanner, given that the matcher always consumes
at least one character. -/
theorem scanMatches_fuel {α : Type} (f : List Char → Option (α × Bool × List Char))
    (hf : ∀ l v nl r, f l = some (v, nl, r) → r.length < l.length) :
    ∀ (f₁ f₂ : Nat) (b : Bool) (l : List Char),
    l.length ≤ f₁ → l.length ≤ f₂ → scanMatches f f₁ b l = scanMatches f f₂ b l := by
  intro f₁
  induction f₁ with
  | zero =>
    intro f₂ b l h1 _
    have : l = [] := List.eq_nil_of_length_eq_zero (Nat.le_zero.mp h1)
    subst this
    cases f₂ <;> simp [scanMatches]
  | succ g ih =>
    intro f₂ b l h1 h2
    cases l with
    | nil => cases f₂ <;> simp [scanMatches]
    | cons c cs =>
      cases f₂ with
      | zero => exact absurd h2 (by simp)
      | succ g2 =>
        simp only [scanMatches]
        split
        · cases h3 : f (c :: cs) with
          | some p =>
            obtain ⟨v, nl, rest⟩ := p
            have hr := hf _ _ _ _ h3
            simp only [List.length_cons] at hr h1 h2
            show v :: scanMatches f g nl rest = v :: scanMatches f g2 nl rest
            rw [ih g2 nl rest (by omega) (by omega)]
          | none =>
            simp only [List.length_cons] at h1 h2
            show scanMatches f g (c = '\n') cs = scanMatches f g2 (c = '\n') cs
            rw [ih g2 (decide (c = '\n')) cs (by omega) (by omega)]
        · simp only [List.length_cons] at h1 h2
          rw [ih g2 (decide (c = '\n')) cs (by omega) (by omega)]

/-- Embedding of `parse_flag` (orchestrator.py): strip echoed delimited
sections, find all matches of `^\s*KEY\s*:\s*(YES|NO)\s*$`
(IGNORECASE, MULTILINE), and return the upper-cased group of the last
match, if any. -/
def parse_flag (text : String) (key : String) : Option String :=
  let ct := (strip_delimited_sections text).data
  match (scanMatches (matchFlagAt (key.data.map asciiLower)) ct.length true ct).getLast? with
  | none => none
  | some v => some (if v then "YES" else "NO")

/-- Python `str.strip()` on a character list. -/
def trimPy (l : List Char) : List Char :=
  ((l.dropWhile isPySpace).reverse.dropWhile isPySpace).reverse

/-- Python `str.split(",")` (keeps empty parts). -/
def splitOnCommaGo (cur : List Char) : List Char → List (List Char)
  | [] => [cur.reverse]
  | c :: cs =>
    if c = ',' then cur.reverse :: splitOnCommaGo [] cs
    else splitOnCommaGo (c :: cur) cs

def splitOnComma (l : List Char) : List (List Char) :=
  splitOnCommaGo [] l

/-- Check that the rest of the current line consists of whitespace only, so
that a trailing `\s*$` can reach a MULTILINE line end from here. -/
def lineEndReachable (l : List Char) : Bool :=
  (l.takeWhile (fun c => c ≠ '\n')).all isPySpace

/-- Non-greedy `(.+?)` followed by `\s*$`: consume the shortest non-empty
run of non-LF characters after which a line end is reachable through
whitespace.  Returns the group and the remainder before the trailing
whitespace. -/
def scanToLineEnd (acc : List Char) : List Char → Option (List Char × List Char)
  | [] => none
  | c :: cs =>
    if c = '\n' then none
    else if lineEndReachable cs then some (acc ++ [c], cs)
    else scanToLineEnd (acc ++ [c]) cs

/-- Non-greedy `(.+?)` followed by `\s*\|`: consume the shortest non-empty
run of non-LF characters after which, skipping whitespace, a literal `|`
follows.  Returns the group and the remainder after that `|`. -/
def scanToBar (acc : List Char) : List Char → Option (List Char × List Char)
  | [] => none
  | c :: cs =>
    if c = '\n' then none
    else
      match dropPyWs cs with
      | '|' :: rest => some (acc ++ [c], rest)
      | _ => scanToBar (acc ++ [c]) cs

/-- Backtracking driver for a greedy `\s*` followed by a non-greedy group:
the scan is first attempted after the maximal whitespace run, then with one
trailing whitespace character given back at a time (the regex engine's
backtracking order).  The first argument is the reversed whitespace run. -/
def downK {β : Type} (scan : List Char → Option β) : List Char → List Char → Option β
  | [], cand => scan cand
  | w :: wsRev, cand =>
    match scan cand with
    | some r => some r
    | none => downK scan wsRev (w :: cand)

/-- Matcher for `\s*(.+?)\s*$`: group value, line-start status of the
continuation position, and the remainder after the (greedy) match end. -/
def groupToLineEnd (l : List Char) : Option (List Char × Bool × List Char) :=
  match downK (scanToLineEnd []) (l.takeWhile isPySpace).reverse (l.dropWhile isPySpace) with
  | none => none
  | some (p, after) =>
    match trailEnd false after with
    | none => none
    | some (nl, r) => some (p, nl, r)

/-- Matcher for `\s*(.+?)\s*\|`: group value and remainder after the bar. -/
def groupToBar (l : List Char) : Option (List Char × List Char) :=
  downK (scanToBar []) (l.takeWhile isPySpace).reverse (l.dropWhile isPySpace)

/-- Match of `^\s*OPEN_FINDINGS\s*:\s*(.+?)\s*$` at an anchor position,
returning the raw group. -/
def matchOpenFindingsAt (l : List Char) : Option (List Char × Bool × List Char) :=
  match expectCharsCI ("open_findings".data) (dropPyWs l) with
  | none => none
  | some l1 =>
    match expectChars [':'] (dropPyWs l1) with
    | none => none
    | some l2 => groupToLineEnd l2

/-- Match of
`^\s*FINDING_STATUS\s*:\s*([A-Za-z0-9_-]+)\s*\|\s*(OPEN|CLOSED)\s*\|.+$`
at an anchor position.  The id run is maximal (its followers are disjoint
from the class); the status alternation cannot overlap; the final `.+$`
requires a non-empty rest of line and ends the match at the line end.
Returns the upper-cased id and status. -/
def matchFindingStatusAt (l : List Char) : Option ((List Char × List Char) × Bool × List Char) :=
  match expectCharsCI ("finding_status".data) (dropPyWs l) with
  | none => none
  | some l1 =>
    match expectChars [':'] (dropPyWs l1) with
    | none => none
    | some l2 =>
      let idrun := (dropPyWs l2).takeWhile isIdentChar
      let l3 := (dropPyWs l2).dropWhile isIdentChar
      if idrun = [] then none
      else
        match expectChars ['|'] (dropPyWs l3) with
        | none => none
        | some l4 =>
          let statusRes : Option (List Char × List Char) :=
            match expectCharsCI ("open".data) (dropPyWs l4) with
            | some l6 => some ("OPEN".data, l6)
            | none =>
              match expectCharsCI ("closed".data) (dropPyWs l4) with
              | some l6 => some ("CLOSED".data, l6)
              | none => none
          match statusRes with
          | none => none
          | some (st, l6) =>
            match expectChars ['|'] (dropPyWs l6) with
            | none => none
            | some l7 =>
              if l7.takeWhile (fun c => c ≠ '\n') = [] then none
              else some ((idrun.map asciiUpper, st), false, l7.dropWhile (fun c => c ≠ '\n'))

/-- Match of
`^\s*NEW_FINDING\s*:\s*([A-Za-z0-9_-]+)\s*\|\s*(.+?)\s*\|\s*(.+?)\s*$`
at an anchor position, returning the upper-cased id and the two raw groups.
Committing the summary group to the first reachable bar is faithful: the
acceptance group can only fail when everything after that bar is LF-only
whitespace, in which case no later closing bar exists either. -/
def matchNewFindingAt (l : List Char) :
    Option ((List Char × List Char × List Char) × Bool × List Char) :=
  match expectCharsCI ("new_finding".data) (dropPyWs l) with
  | none => none
  | some l1 =>
    match expectChars [':'] (dropPyWs l1) with
    | none => none
    | some l2 =>
      let idrun := (dropPyWs l2).takeWhile isIdentChar
      let l3 := (dropPyWs l2).dropWhile isIdentChar
      if idrun = [] then none
      else
        match expectChars ['|'] (dropPyWs l3) with
        | none => none
        | some l4 =>
          match groupToBar l4 with
          | none => none
          | some (summary, l5) =>
            match groupToLineEnd l5 with
            | none => none
            | some (acceptance, nl, r) =>
              some ((idrun.map asciiUpper, summary, acceptance), nl, r)

/-- Embedding of `parse_open_findings` (orchestrator.py): last match wins;
`NONE` yields the empty list, otherwise the group is split on commas and
each non-blank part is trimmed and upper-cased. -/
def parse_open_findings (text : String) : Option (List String) :=
  let ct := (strip_delimited_sections text).data
  match (scanMatches matchOpenFindingsAt ct.length true ct).getLast? with
  | none => none
  | some raw =>
    let rawS := trimPy raw
    if rawS.map asciiUpper = ("NONE".data) then some []
    else
      some ((splitOnComma rawS).filterMap (fun part =>
        let t := trimPy part
        if t = [] then none else some (String.mk (t.map asciiUpper))))

/-- Insertion into a Python-dict model: first-insertion order is kept and a
repeated key overwrites the stored value in place. -/
def dictInsert (m : List (String × String)) (k v : String) : List (String × String) :=
  if m.any (fun p => p.1 = k) then m.map (fun p => if p.1 = k then (k, v) else p)
  else m ++ [(k, v)]

/-- Lookup in the Python-dict model (the `in` operator on dict keys). -/
def dictHas (m : List (String × String)) (k : String) : Bool :=
  m.any (fun p => p.1 = k)

/-- Embedding of `parse_finding_status_map` (orchestrator.py). -/
def parse_finding_status_map (text : String) : List (String × String) :=
  let ct := (strip_delimited_sections text).data
  (scanMatches matchFindingStatusAt ct.length true ct).foldl
    (fun m p => dictInsert m (String.mk p.1) (String.mk p.2)) []

/-- Embedding of `parse_new_findings` (orchestrator.py): the stored value is
the trimmed summary and acceptance joined by a bar. -/
def parse_new_findings (text : String) : List (String × String) :=
  let ct := (strip_delimited_sections text).data
  (scanMatches matchNewFindingAt ct.length true ct).foldl
    (fun m p =>
      dictInsert m (String.mk p.1)
        (String.mk (trimPy p.2.1) ++ " | " ++ String.mk (trimPy p.2.2))) []

/-- Embedding of `FINDING_ID_PATTERN.match` (state_io.py): the anchored
pattern `^F-\d{3}$`, whose `$` also accepts one trailing LF. -/
def finding_id_matches (s : String) : Bool :=
  match s.data with
  | 'F' :: '-' :: a :: b :: c :: rest =>
    a.isDigit && b.isDigit && c.isDigit && (rest = [] || rest = ['\n'])
  | _ => false

/-- Python line-break characters recognised by `str.splitlines`. -/
def isPyLineBreak (c : Char) : Bool :=
  let n := c.toNat
  decide (n = 10 ∨ n = 11 ∨ n = 12 ∨ n = 13 ∨ n = 28 ∨ n = 29 ∨ n = 30 ∨
    n = 0x85 ∨ n = 0x2028 ∨ n = 0x2029)

/-- Python `str.splitlines()` (CRLF is a single break, no trailing empty
line for a final break). -/
def splitlinesGo (cur : List Char) : List Char → List (List Char)
  | [] => if cur = [] then [] else [cur.reverse]
  | '\r' :: '\n' :: cs => cur.reverse :: splitlinesGo [] cs
  | c :: cs =>
    if isPyLineBreak c then cur.reverse :: splitlinesGo [] cs
    else splitlinesGo (c :: cur) cs

def splitlinesPy (l : List Char) : List (List Char) :=
  splitlinesGo [] l

/-- Embedding of `validate_done_marker` (orchestrator.py): after stripping
echoed sections, the last non-blank trimmed line must be exactly the
completion marker. -/
def validate_done_marker (text : String) : Bool :=
  let lines := ((splitlinesPy (strip_delimited_sections text).data).map trimPy).filter
    (fun l => l ≠ [])
  decide (lines.getLast? = some ("STATUS: DONE".data))

/-- Second half of `validate_agent_contract` (orchestrator.py), from the
`status_map = parse_finding_status_map(output)` line on: id hygiene of the
per-finding status lines, coverage of the previously-open ids, id hygiene
of the new-finding definitions, and the requirement that every newly-open
id has a definition. -/
def vac_findings (output : String) (previous_open_findings : List String)
    (open_findings : List String) : Option String × Option (List String) :=
  let status_map := parse_finding_status_map output
  match status_map.find? (fun p => ! finding_id_matches p.1) with
  | some p =>
    (some ("invalid finding id '" ++ p.1 ++ "' in FINDING_STATUS (expected format F-001)"),
      none)
  | none =>
    match previous_open_findings.find? (fun fid => ! dictHas status_map fid) with
    | some fid =>
      (some ("missing FINDING_STATUS line for previous open finding " ++ fid), none)
    | none =>
      let new_findings := parse_new_findings output
      match new_findings.find? (fun p => ! finding_id_matches p.1) with
      | some p =>
        (some ("invalid finding id '" ++ p.1 ++ "' in NEW_FINDING (expected format F-001)"),
          none)
      | none =>
        match open_findings.find? (fun fid =>
            ! previous_open_findings.contains fid && ! dictHas new_findings fid) with
        | some fid =>
          (some ("new open finding " ++ fid ++ " requires NEW_FINDING: " ++ fid ++
            " | <summary> | <acceptance>"), none)
        | none => (none, some open_findings)

/-- Middle part of `validate_agent_contract` (orchestrator.py), once the
open-findings marker has parsed: id hygiene and duplicate check of the
open-findings list and the two approval/emptiness consistency rules. -/
def vac_after_open (output : String) (previous_open_findings : List String)
    (approval_key : String) (approval : Option String) (open_findings : List String) :
    Option String × Option (List String) :=
  match open_findings.find? (fun fid => ! finding_id_matches fid) with
  | some fid =>
    (some ("invalid finding id '" ++ fid ++ "' (expected format F-001)"), none)
  | none =>
    if ¬ open_findings.Nodup then
      (some "OPEN_FINDINGS contains duplicate finding ids", none)
    else if approval = some "YES" ∧ open_findings ≠ [] then
      (some (approval_key ++ ": YES is only allowed when OPEN_FINDINGS: NONE"), none)
    else if approval = some "NO" ∧ open_findings = [] then
      (some (approval_key ++ ": NO requires at least one open finding"), none)
    else vac_findings output previous_open_findings open_findings

/-- Embedding of `validate_agent_contract` (orchestrator.py), split at its
early returns into the staged helpers above (in source order): the
approval marker must parse to YES or NO and the open-findings marker must
be present; the remaining checks are `vac_after_open` and `vac_findings`.
Returns the pair (rejection reason, normalized open findings). -/
def validate_agent_contract (output : String) (previous_open_findings : List String)
    (approval_key : String) : Option String × Option (List String) :=
  let approval := parse_flag output approval_key
  if approval ≠ some "YES" ∧ approval ≠ some "NO" then
    (some ("missing or invalid " ++ approval_key ++ " marker"), none)
  else
    match parse_open_findings output with
    | none => (some "missing OPEN_FINDINGS marker", none)
    | some open_findings =>
      vac_after_open output previous_open_findings approval_key approval open_findings

/-- Error type of `QuotaReachedError` (agent_runtime.py). -/
structure QuotaReachedError where
  agent_key : String
  detail : String
deriving DecidableEq

/-- The message built by `QuotaReachedError.__init__`. -/
def quotaMessage (e : QuotaReachedError) : String :=
  e.agent_key ++ " quota/rate limit reached: " ++ e.detail

/-- The modelled fields of `OrchestratorConfig` (agent_runtime.py); the
remaining fields only control process I/O and display. -/
structure OrchestratorConfig where
  allow_fallback_to_gemini : Bool
  claude_quota_reached : Bool
deriving DecidableEq

/-- Prefix test on character lists. -/
def listIsPrefix : List Char → List Char → Bool
  | [], _ => true
  | _ :: _, [] => false
  | p :: ps, c :: cs => p = c && listIsPrefix ps cs

/-- Substring containment (the Python `in` operator on strings). -/
def listContainsSub (needle : List Char) : List Char → Bool
  | [] => needle = []
  | c :: cs => listIsPrefix needle (c :: cs) || listContainsSub needle cs

/-- The fixed marker vocabulary of `is_quota_or_rate_limit_error`
(agent_runtime.py). -/
def QUOTA_MARKERS : List String :=
  ["quota", "hit your limit", "you've hit your limit", "usage cap", "rate limit",
   "too many requests", "429", "insufficient credits", "credit balance is too low",
   "usage limit", "resource exhausted"]

/-- Embedding of `is_quota_or_rate_limit_error` (agent_runtime.py). -/
def is_quota_or_rate_limit_error (text : String) : Bool :=
  let raw := text.data.map asciiLower
  QUOTA_MARKERS.any (fun m => listContainsSub m.data raw)

/-- Embedding of `shorten` (orchestrator.py): strip, then truncate with a
marker when over the limit. -/
def shorten (text : String) (limit : Nat) : String :=
  let raw := trimPy text.data
  if raw.length ≤ limit then String.mk raw
  else String.mk (raw.take limit) ++ " ...[truncated]"

/-- The `ERROR_TRUNCATION_LIMIT` constant of agent_runtime.py. -/
def ERROR_TRUNCATION_LIMIT : Nat := 1200

/-- Embedding of `compute_retry_backoff_seconds` (agent_runtime.py). -/
def compute_retry_backoff_seconds (error_text : String) (attempt : Int) : Int :=
  let exponential := min 30 (2 * 2 ^ (max 0 (attempt - 1)).toNat)
  if is_quota_or_rate_limit_error error_text then max 10 exponential
  else exponential

/-- Embedding of the `validate_output_contract` closure inside
`run_agent_checked` (agent_runtime.py): completion marker first, then the
required flags (each a `|`-separated alias group), then the optional
per-call validator. -/
def validate_output_contract (required_flags : List String)
    (output_validator : Option (String → Option String)) (output : String) : Option String :=
  if ¬ validate_done_marker output then
    some "missing required final completion marker 'STATUS: DONE'"
  else
    let missing_flags := required_flags.filterMap (fun flag =>
      let candidates := ((flag.splitOn "|").map (fun p => String.mk (trimPy p.data))).filter
        (fun p => p ≠ "")
      if candidates = [] then none
      else if candidates.all (fun c => (parse_flag output c).isNone) then
        some (String.intercalate "|" candidates)
      else none)
    if missing_flags ≠ [] then
      some ("missing required flags: " ++ String.intercalate ", " missing_flags)
    else
      match output_validator with
      | some v => v output
      | none => none

/-- Outcome of `run_agent_checked`: a terminal quota error or the final
retries-exhausted `RuntimeError`. -/
inductive AgentCallErr where
  | quota : QuotaReachedError → AgentCallErr
  | exhausted : String → AgentCallErr
deriving DecidableEq

/-- The retry loop of `run_agent_checked` (agent_runtime.py).  The external
world is abstracted by an oracle giving, for each agent key and attempt
number, either the output of `run_agent` or the text of the exception it
raised.  The configuration is threaded explicitly because the Python code
mutates `config.claude_quota_reached` (the sticky fallback flag).  Sleeping,
logging and prompt augmentation do not affect the returned value and are
not modelled; the fuel is the number of remaining attempts. -/
def run_agent_checkedGo (oracle : String → Nat → Except String String)
    (validate : String → Option String) (effective_agent_key : String) :
    OrchestratorConfig → List String → Nat → Nat →
    OrchestratorConfig × Except AgentCallErr String
  | cfg, errors, attempt, 0 =>
    (cfg, .error (.exhausted (effective_agent_key ++ " did not produce valid output after " ++
      toString (attempt - 1) ++ " attempts: " ++
      shorten (String.intercalate "\n" errors) ERROR_TRUNCATION_LIMIT)))
  | cfg, errors, attempt, remaining + 1 =>
    match oracle effective_agent_key attempt with
    | .ok output =>
      match validate output with
      | some verr =>
        run_agent_checkedGo oracle validate effective_agent_key cfg (errors ++ [verr])
          (attempt + 1) remaining
      | none => (cfg, .ok output)
    | .error exc =>
      let error_text := shorten exc ERROR_TRUNCATION_LIMIT
      let errors1 := errors ++ [error_text]
      if cfg.allow_fallback_to_gemini ∧ effective_agent_key = "claude" ∧
          is_quota_or_rate_limit_error error_text then
        match oracle "gemini" attempt with
        | .ok fallback_output =>
          match validate fallback_output with
          | none => ({ cfg with claude_quota_reached := true }, .ok fallback_output)
          | some _ =>
            -- The invalid fallback output is recorded and control falls
            -- through to the quota check, which holds here with
            -- effective_agent_key = "claude" and fallback enabled.
            (cfg, .error (.quota ⟨"claude", error_text⟩))
        | .error fexc =>
          let fallback_error := shorten fexc ERROR_TRUNCATION_LIMIT
          if is_quota_or_rate_limit_error fallback_error then
            ({ cfg with claude_quota_reached := true },
              .error (.quota ⟨"gemini", fallback_error⟩))
          else
            -- Fall through to the quota check on the primary error, which
            -- holds here with effective_agent_key = "claude".
            (cfg, .error (.quota ⟨"claude", error_text⟩))
      else
        if is_quota_or_rate_limit_error error_text then
          if effective_agent_key = "claude" ∧ cfg.allow_fallback_to_gemini then
            (cfg, .error (.quota ⟨"claude", error_text⟩))
          else
            (cfg, .error (.quota ⟨effective_agent_key, error_text⟩))
        else
          run_agent_checkedGo oracle validate effective_agent_key cfg errors1
            (attempt + 1) remaining

/-- Embedding of `run_agent_checked` (agent_runtime.py): the effective agent
is switched to the fallback up front when the sticky flag is already set;
the loop performs `max_retries + 1` attempts. -/
def run_agent_checked (cfg : OrchestratorConfig) (agent_key : String) (max_retries : Nat)
    (oracle : String → Nat → Except String String) (required_flags : List String)
    (output_validator : Option (String → Option String)) :
    OrchestratorConfig × Except AgentCallErr String :=
  let effective_agent_key :=
    if agent_key = "claude" ∧ cfg.allow_fallback_to_gemini ∧ cfg.claude_quota_reached then
      "gemini"
    else agent_key
  run_agent_checkedGo oracle (validate_output_contract required_flags output_validator)
    effective_agent_key cfg [] 1 (max_retries + 1)

/-- The per-phase slice of the persisted run state (state_io.init_state).
Timestamps (`started_at`, `updated_at`, `completed_at`) are wall-clock
strings with no control-flow influence and are elided; the union of the
phase1 and phase2 field sets is used for both phases, as fields absent
from a phase dict are never read for that phase. -/
structure PhaseSt where
  status : String
  cycle : Int
  max_cycles : Int
  codex_approval : String
  claude_approval : String
  open_findings : List String
  finding_history : List (String × String)
  implementation_ready : String
  last_test_exit : Option Int
  last_test_snapshot : String
  error : Option String
deriving DecidableEq

/-- The run state document (state_io.init_state): the phase marker and the
two phase slices.  The artifact-path and version bookkeeping fields do not
interact with the claims and are elided. -/
structure RunSt where
  phase : String
  phase1 : PhaseSt
  phase2 : PhaseSt
deriving DecidableEq

/-- Embedding of the phase slices created by `init_state` (state_io.py). -/
def init_phase1_state (max_cycles : Int) : PhaseSt :=
  { status := "pending", cycle := 0, max_cycles := max_cycles,
    codex_approval := "NO", claude_approval := "NO", open_findings := [],
    finding_history := [], implementation_ready := "NO", last_test_exit := none,
    last_test_snapshot := "", error := none }

def init_phase2_state (max_cycles : Int) : PhaseSt :=
  { status := "pending", cycle := 0, max_cycles := max_cycles,
    codex_approval := "NO", claude_approval := "NO", open_findings := [],
    finding_history := [], implementation_ready := "NO", last_test_exit := none,
    last_test_snapshot := "", error := none }

/-- Embedding of `init_state` (state_io.py) restricted to the modelled
fields. -/
def init_state (phase1_max_cycles phase2_max_cycles : Int) : RunSt :=
  { phase := "phase1",
    phase1 := init_phase1_state phase1_max_cycles,
    phase2 := init_phase2_state phase2_max_cycles }

/-- Read the phase slice selected by a phase key. -/
def getPhaseSt (st : RunSt) (key : String) : PhaseSt :=
  if key = "phase1" then st.phase1 else st.phase2

/-- Write the phase slice selected by a phase key. -/
def setPhaseSt (st : RunSt) (key : String) (p : PhaseSt) : RunSt :=
  if key = "phase1" then { st with phase1 := p } else { st with phase2 := p }

/-- Embedding of `freeze_current_phase` (orchestrator.py): normalise the
phase key, rewind a strictly positive cycle counter by one, set status
`frozen` and record the stringified quota error; the state is then
persisted. -/
def freeze_current_phase (st : RunSt) (error : QuotaReachedError) : RunSt :=
  let phase_key := if st.phase = "phase1" ∨ st.phase = "phase2" then st.phase else "phase1"
  let ps := getPhaseSt st phase_key
  let ps1 := if ps.cycle > 0 then { ps with cycle := ps.cycle - 1 } else ps
  let ps2 := { ps1 with status := "frozen", error := some (quotaMessage error) }
  { setPhaseSt st phase_key ps2 with phase := phase_key }

/-- Embedding of `RunContext.recover_state_from_checkpoint`
(orchestrator.py).  The checkpoint store is an oracle from (phase, cycle)
keys to optional checkpointed states, mirroring
`state_io.load_cycle_checkpoint`. -/
def recover_state_from_checkpoint (checkpoints : String → Int → Option RunSt)
    (st : RunSt) : RunSt :=
  let phase := st.phase
  if phase ≠ "phase1" ∧ phase ≠ "phase2" then st
  else
    let phase_state := getPhaseSt st phase
    if phase_state.status ≠ "running" ∧ phase_state.status ≠ "frozen" then st
    else if phase_state.cycle ≤ 0 then st
    else
      match checkpoints phase phase_state.cycle with
      | none => st
      | some recovered => recovered

/-- Overlay of parsed per-finding entries onto the finding history
(`finding_history[fid] = value` in a loop). -/
def overlayHistory (history : List (String × String)) (entries : List (String × String)) :
    List (String × String) :=
  entries.foldl (fun h p => dictInsert h p.1 p.2) history

/-- Results of the external calls made during one phase-1 cycle, abstracting
`run_agent_checked` (whose contract validation has already accepted the
returned text): either the validated output text or a propagating error. -/
structure Phase1CycleCalls where
  plan : Except AgentCallErr String
  review : Except AgentCallErr String
  confirm : Except AgentCallErr String

/-- Results of the external calls made during one phase-2 cycle.  The test
command result abstracts `run_tests_snapshot`. -/
structure Phase2CycleCalls where
  impl : Except AgentCallErr String
  test : Int × String
  review : Except AgentCallErr String

/-- Exit reason of a phase loop. -/
inductive PhaseExit where
  | completed : PhaseExit
  | failedMaxCycles : PhaseExit
  | quota : QuotaReachedError → PhaseExit
  | fatal : String → PhaseExit
deriving DecidableEq

/-- A checkpoint write: the (phase, cycle) key and the state snapshot taken
at the top of the cycle, before the cycle counter is advanced. -/
structure CheckpointWrite where
  phase : String
  cycle : Int
  snapshot : RunSt
deriving DecidableEq

/-- The phase-1 cycle loop of `run_phase1` (orchestrator.py), iterating
`range(start_cycle, max_cycles + 1)`.  Each iteration checkpoints the
pre-cycle state, advances the cycle counter, performs the plan, review and
confirmation calls (a raised `QuotaReachedError` or `RuntimeError`
propagates with the state mutations made so far), applies the reviewer
cross-check that forces the confirmation to NO, and completes only when
both approvals are YES. -/
def run_phase1Go (calls : Int → Phase1CycleCalls) :
    Nat → Int → Int → RunSt → List CheckpointWrite →
    RunSt × PhaseExit × List CheckpointWrite
  | 0, _, _, st, log =>
    (setPhaseSt st "phase1"
      { getPhaseSt st "phase1" with
        status := "failed"
        error := some "Phase 1 reached max cycles without dual approval." },
      .failedMaxCycles, log)
  | fuel + 1, cycle, max_cycles, st, log =>
    let log := log ++ [⟨"phase1", cycle, st⟩]
    let st := setPhaseSt st "phase1" { getPhaseSt st "phase1" with cycle := cycle, error := none }
    match (calls cycle).plan with
    | .error (.quota e) => (st, .quota e, log)
    | .error (.exhausted m) => (st, .fatal m, log)
    | .ok _ =>
      match (calls cycle).review with
      | .error (.quota e) => (st, .quota e, log)
      | .error (.exhausted m) => (st, .fatal m, log)
      | .ok codex_review =>
        let codex_approval := (parse_flag codex_review "CODEX_APPROVAL").getD "NO"
        let parsed_open_findings := (parse_open_findings codex_review).getD []
        let status_map := parse_finding_status_map codex_review
        let new_finding_map := parse_new_findings codex_review
        let p1 := getPhaseSt st "phase1"
        let p1 := { p1 with
          open_findings := parsed_open_findings
          finding_history := overlayHistory (overlayHistory p1.finding_history status_map)
            new_finding_map }
        let st := setPhaseSt st "phase1" p1
        match (calls cycle).confirm with
        | .error (.quota e) => (st, .quota e, log)
        | .error (.exhausted m) => (st, .fatal m, log)
        | .ok claude_confirm =>
          let claude_approval0 := (parse_flag claude_confirm "CLAUDE_APPROVAL").getD "NO"
          let claude_approval :=
            if codex_approval = "NO" ∧ claude_approval0 = "YES" then "NO" else claude_approval0
          let p1 := getPhaseSt st "phase1"
          let p1 := { p1 with
            codex_approval := codex_approval
            claude_approval := claude_approval }
          let st := setPhaseSt st "phase1" p1
          if codex_approval = "YES" ∧ claude_approval = "YES" then
            ({ setPhaseSt st "phase1" { getPhaseSt st "phase1" with status := "completed" } with
                phase := "phase2" }, .completed, log)
          else
            run_phase1Go calls fuel (cycle + 1) max_cycles st log

/-- Embedding of `run_phase1` (orchestrator.py): mark the phase running,
then run the cycle loop from `cycle + 1` up to `max_cycles`. -/
def run_phase1 (calls : Int → Phase1CycleCalls) (st : RunSt) :
    RunSt × PhaseExit × List CheckpointWrite :=
  let st := { setPhaseSt st "phase1" { getPhaseSt st "phase1" with status := "running" } with
    phase := "phase1" }
  let start_cycle := (getPhaseSt st "phase1").cycle + 1
  let max_cycles := (getPhaseSt st "phase1").max_cycles
  run_phase1Go calls (max_cycles + 1 - start_cycle).toNat start_cycle max_cycles st []

/-- The phase-2 cycle loop of `run_phase2` (orchestrator.py).  Each
iteration checkpoints the pre-cycle state, advances the cycle counter, runs
the implementation call, the synchronous test command and the review call
(quota errors propagate with the mutations made so far), records the parsed
markers, and completes only when the implementer readiness flag is YES, the
test exit code is 0 and the reviewer approval is YES in this same cycle. -/
def run_phase2Go (calls : Int → Phase2CycleCalls) :
    Nat → Int → Int → RunSt → List CheckpointWrite →
    RunSt × PhaseExit × List CheckpointWrite
  | 0, _, _, st, log =>
    (setPhaseSt st "phase2"
      { getPhaseSt st "phase2" with
        status := "failed"
        error := some "Phase 2 reached max cycles without approval/pass condition." },
      .failedMaxCycles, log)
  | fuel + 1, cycle, max_cycles, st, log =>
    let log := log ++ [⟨"phase2", cycle, st⟩]
    let st := setPhaseSt st "phase2" { getPhaseSt st "phase2" with cycle := cycle, error := none }
    match (calls cycle).impl with
    | .error (.quota e) => (st, .quota e, log)
    | .error (.exhausted m) => (st, .fatal m, log)
    | .ok impl_report =>
      let (test_exit, test_snapshot) := (calls cycle).test
      let st := setPhaseSt st "phase2" { getPhaseSt st "phase2" with
        last_test_exit := some test_exit
        last_test_snapshot := test_snapshot }
      match (calls cycle).review with
      | .error (.quota e) => (st, .quota e, log)
      | .error (.exhausted m) => (st, .fatal m, log)
      | .ok claude_review =>
        let implementation_ready := (parse_flag impl_report "IMPLEMENTATION_READY").getD "NO"
        let claude_approval := (parse_flag claude_review "CLAUDE_APPROVAL").getD "NO"
        let parsed_open_findings := (parse_open_findings claude_review).getD []
        let status_map := parse_finding_status_map claude_review
        let new_finding_map := parse_new_findings claude_review
        let p2 := getPhaseSt st "phase2"
        let p2 := { p2 with
          open_findings := parsed_open_findings
          finding_history := overlayHistory (overlayHistory p2.finding_history status_map)
            new_finding_map
          implementation_ready := implementation_ready
          claude_approval := claude_approval }
        let st := setPhaseSt st "phase2" p2
        if implementation_ready = "YES" ∧ test_exit = 0 ∧ claude_approval = "YES" then
          ({ setPhaseSt st "phase2" { getPhaseSt st "phase2" with status := "completed" } with
              phase := "done" }, .completed, log)
        else
          run_phase2Go calls fuel (cycle + 1) max_cycles st log

/-- Embedding of `run_phase2` (orchestrator.py). -/
def run_phase2 (calls : Int → Phase2CycleCalls) (st : RunSt) :
    RunSt × PhaseExit × List CheckpointWrite :=
  let st := { setPhaseSt st "phase2" { getPhaseSt st "phase2" with status := "running" } with
    phase := "phase2" }
  let start_cycle := (getPhaseSt st "phase2").cycle + 1
  let max_cycles := (getPhaseSt st "phase2").max_cycles
  run_phase2Go calls (max_cycles + 1 - start_cycle).toNat start_cycle max_cycles st []

/-- The quota handling of `run_pipeline` (orchestrator.py) around a phase-1
call: only a propagating `QuotaReachedError` is caught and routed to
`freeze_current_phase`; every other outcome leaves the state as the phase
loop produced it. -/
def run_phase1_with_freeze (calls : Int → Phase1CycleCalls) (st : RunSt) : RunSt :=
  match run_phase1 calls st with
  | (st1, .quota e, _) => freeze_current_phase st1 e
  | (st1, _, _) => st1

/-- The quota handling of `run_pipeline` (orchestrator.py) around a phase-2
call. -/
def run_phase2_with_freeze (calls : Int → Phase2CycleCalls) (st : RunSt) : RunSt :=
  match run_phase2 calls st with
  | (st2, .quota e, _) => freeze_current_phase st2 e
  | (st2, _, _) => st2

theorem tryDelimited_head_ne {c : Char} {cs : List Char} (h : c ≠ '<') :
    tryDelimited (c :: cs) = none := by
  unfold tryDelimited matchBeginMarker expectChars
  simp [h]

/-- A text without the delimiter character is left unchanged by the
substitution pass, at any fuel. -/
theorem stripGo_no_lt : ∀ (f : Nat) (l : List Char), (∀ c ∈ l, c ≠ '<') →
    stripGo f l = l := by
  intro f
  induction f with
  | zero => intro l _; rfl
  | succ g ih =>
    intro l h
    cases l with
    | nil => rfl
    | cons c cs =>
      have hc : c ≠ '<' := h c (by simp)
      simp only [stripGo, tryDelimited_head_ne hc]
      rw [ih cs (fun x hx => h x (by simp [hx]))]

theorem strip_no_lt (s : String) (h : ∀ c ∈ s.data, c ≠ '<') :
    strip_delimited_sections s = s := by
  unfold strip_delimited_sections
  rw [stripGo_no_lt _ _ h]

/-- Claim C9: the retry backoff equals `min(30, 2 * 2^(attempt-1))` seconds
for a generic failure and `max(10, that value)` for a quota-classified
failure; hence it is non-decreasing in the attempt number, capped at 30
seconds, and never below 10 seconds for quota-classified errors. -/
theorem c9_backoff_formula (error_text : String) (n : Int) (h : 1 ≤ n) :
    (compute_retry_backoff_seconds error_text n =
      if is_quota_or_rate_limit_error error_text then
        max 10 (min 30 (2 * 2 ^ (n - 1).toNat))
      else min 30 (2 * 2 ^ (n - 1).toNat)) ∧
    compute_retry_backoff_seconds error_text n ≤
      compute_retry_backoff_seconds error_text (n + 1) ∧
    compute_retry_backoff_seconds error_text n ≤ 30 ∧
    (is_quota_or_rate_limit_error error_text = true →
      10 ≤ compute_retry_backoff_seconds error_text n) := by
  have hmax : max 0 (n - 1) = n - 1 := by omega
  have hmax2 : max 0 (n + 1 - 1) = n + 1 - 1 := by omega
  have hpow : (2 : Int) ^ (n - 1).toNat ≤ 2 ^ (n + 1 - 1).toNat := by
    apply pow_le_pow_right₀ (by norm_num)
    omega
  have hmono : min 30 (2 * 2 ^ (n - 1).toNat) ≤ min 30 ((2 : Int) * 2 ^ (n + 1 - 1).toNat) := by
    apply min_le_min (le_refl _)
    omega
  have hcap : ∀ x : Int, min 30 x ≤ 30 := fun x => min_le_left 30 x
  unfold compute_retry_backoff_seconds
  rw [hmax, hmax2]
  refine ⟨rfl, ?_, ?_, ?_⟩
  · split
    · exact max_le_max (le_refl 10) hmono
    · exact hmono
  · split
    · exact max_le (by norm_num) (hcap _)
    · exact hcap _
  · intro hq
    rw [if_pos hq]
    exact le_max_left _ _

theorem c9_backoff_formula_witness :
    compute_retry_backoff_seconds "HTTP 429 too many requests" 3 ≤ 30 ∧
    10 ≤ compute_retry_backoff_seconds "HTTP 429 too many requests" 3 ∧
    compute_retry_backoff_seconds "network glitch" 2 ≤
      compute_retry_backoff_seconds "network glitch" 3 := by
  have h1 := c9_backoff_formula "HTTP 429 too many requests" 3 (by norm_num)
  have h2 := c9_backoff_formula "network glitch" 2 (by norm_num)
  exact ⟨h1.2.2.1, h1.2.2.2 (by decide), h2.2.1⟩

/-- Claim C6 (counterexample): stripping echoed delimited blocks is not
idempotent.  Removing an inner block can splice the surrounding characters
into a new well-formed block, which only a second pass removes: here one
pass yields a fresh block and the second pass yields the empty string. -/
theorem c6_counterexample :
    strip_delimited_sections (strip_delimited_sections
      "<<<A_BEG<<<B_BEGIN>>>y<<<B_END>>>IN>>>x<<<A_END>>>") ≠
    strip_delimited_sections "<<<A_BEG<<<B_BEGIN>>>y<<<B_END>>>IN>>>x<<<A_END>>>" := by
  decide

/-- Claim C6 (amended): stripping is idempotent on every input whose
stripped form no longer contains the delimiter character, so a second
application can find no match. -/
theorem c6_strip_idempotent (t : String)
    (h : ∀ c ∈ (strip_delimited_sections t).data, c ≠ '<') :
    strip_delimited_sections (strip_delimited_sections t) = strip_delimited_sections t :=
  strip_no_lt _ h

theorem c6_strip_idempotent_witness :
    strip_delimited_sections (strip_delimited_sections
      "intro\n<<<TASK_BEGIN>>>\nSTATUS: DONE\n<<<TASK_END>>>\noutro") =
    strip_delimited_sections "intro\n<<<TASK_BEGIN>>>\nSTATUS: DONE\n<<<TASK_END>>>\noutro" :=
  c6_strip_idempotent _ (by decide)

/-- A statement of the completion check in the spec's words, compared with
the embedded `validate_done_marker` below: the last surviving (stripped,
non-blank) line of the echo-stripped text. -/
def last_surviving_line (t : String) : Option (List Char) :=
  (((splitlinesPy (strip_delimited_sections t).data).map trimPy).filter
    (fun l => l ≠ [])).getLast?

/-- Claim C7: the completion check accepts exactly when the final surviving
non-blank line equals the completion marker; the empty text, an all-blank
text, and a text with content after the marker are rejected; and inside
`run_agent_checked` a failed completion check rejects the response with the
marker-missing reason regardless of the required flags and of the per-call
validator. -/
theorem c7_done_marker :
    validate_done_marker "" = false ∧
    validate_done_marker "  \n \n" = false ∧
    validate_done_marker "STATUS: DONE\ntrailing" = false ∧
    (∀ t : String, validate_done_marker t = true ↔
      last_surviving_line t = some ("STATUS: DONE".data)) ∧
    (∀ (required_flags : List String) (output_validator : Option (String → Option String))
      (output : String), validate_done_marker output = false →
      validate_output_contract required_flags output_validator output =
        some "missing required final completion marker 'STATUS: DONE'") := by
  refine ⟨by decide, by decide, by decide, ?_, ?_⟩
  · intro t
    unfold validate_done_marker last_surviving_line
    exact decide_eq_true_iff
  · intro required_flags output_validator output h
    unfold validate_output_contract
    rw [if_pos (by simp [h])]

theorem c7_done_marker_witness :
    validate_output_contract ["CLAUDE_APPROVAL"] (some (fun _ => none))
      "CLAUDE_APPROVAL: YES\nSTATUS: DONE\ntrailing" =
      some "missing required final completion marker 'STATUS: DONE'" :=
  c7_done_marker.2.2.2.2 ["CLAUDE_APPROVAL"] (some (fun _ => none))
    "CLAUDE_APPROVAL: YES\nSTATUS: DONE\ntrailing" (by decide)

/-- Exhaustive case analysis of `vac_findings`: a rejection, or the
acceptance together with every guard of this stage. -/
theorem vac_findings_cases (output : String) (prev l : List String) :
    (∃ e, vac_findings output prev l = (some e, none)) ∨
    (vac_findings output prev l = (none, some l) ∧
      (∀ p ∈ parse_finding_status_map output, finding_id_matches p.1 = true) ∧
      (∀ fid ∈ prev, dictHas (parse_finding_status_map output) fid = true) ∧
      (∀ p ∈ parse_new_findings output, finding_id_matches p.1 = true) ∧
      (∀ fid ∈ l, prev.contains fid = true ∨
        dictHas (parse_new_findings output) fid = true)) := by
  simp only [vac_findings]
  cases hf2 : (parse_finding_status_map output).find? (fun p => ! finding_id_matches p.1) with
  | some p => exact .inl ⟨_, rfl⟩
  | none =>
    cases hf3 : prev.find? (fun fid => ! dictHas (parse_finding_status_map output) fid) with
    | some fid => exact .inl ⟨_, rfl⟩
    | none =>
      cases hf4 : (parse_new_findings output).find? (fun p => ! finding_id_matches p.1) with
      | some p => exact .inl ⟨_, rfl⟩
      | none =>
        cases hf5 : l.find? (fun fid =>
            ! prev.contains fid && ! dictHas (parse_new_findings output) fid) with
        | some fid => exact .inl ⟨_, rfl⟩
        | none =>
          refine .inr ⟨rfl, ?_, ?_, ?_, ?_⟩
          · intro p hp
            have := List.find?_eq_none.mp hf2 p hp
            simpa using this
          · intro fid hfid
            have := List.find?_eq_none.mp hf3 fid hfid
            simpa using this
          · intro p hp
            have := List.find?_eq_none.mp hf4 p hp
            simpa using this
          · intro fid hfid
            have := List.find?_eq_none.mp hf5 fid hfid
            simp only [Bool.and_eq_true, Bool.not_eq_true', not_and_or,
              Bool.not_eq_false] at this
            exact this

/-- Exhaustive case analysis of `vac_after_open`, composed with
`vac_findings_cases`. -/
theorem vac_after_open_cases (output : String) (prev : List String) (key : String)
    (approval : Option String) (l : List String) :
    (∃ e, vac_after_open output prev key approval l = (some e, none)) ∨
    (vac_after_open output prev key approval l = (none, some l) ∧
      (∀ fid ∈ l, finding_id_matches fid = true) ∧
      l.Nodup ∧
      ¬(approval = some "YES" ∧ l ≠ []) ∧
      ¬(approval = some "NO" ∧ l = []) ∧
      (∀ p ∈ parse_finding_status_map output, finding_id_matches p.1 = true) ∧
      (∀ fid ∈ prev, dictHas (parse_finding_status_map output) fid = true) ∧
      (∀ p ∈ parse_new_findings output, finding_id_matches p.1 = true) ∧
      (∀ fid ∈ l, prev.contains fid = true ∨
        dictHas (parse_new_findings output) fid = true)) := by
  simp only [vac_after_open]
  cases hf1 : l.find? (fun fid => ! finding_id_matches fid) with
  | some fid => exact .inl ⟨_, rfl⟩
  | none =>
    have hids : ∀ fid ∈ l, finding_id_matches fid = true := by
      intro fid hfid
      have := List.find?_eq_none.mp hf1 fid hfid
      simpa using this
    by_cases h2 : ¬ l.Nodup
    · rw [if_pos h2]
      exact .inl ⟨_, rfl⟩
    · rw [if_neg h2]
      by_cases h3 : approval = some "YES" ∧ l ≠ []
      · rw [if_pos h3]
        exact .inl ⟨_, rfl⟩
      · rw [if_neg h3]
        by_cases h4 : approval = some "NO" ∧ l = []
        · rw [if_pos h4]
          exact .inl ⟨_, rfl⟩
        · rw [if_neg h4]
          rcases vac_findings_cases output prev l with ⟨e, he⟩ | ⟨hv, hsm, hprev, hnf, hnew⟩
          · exact .inl ⟨e, he⟩
          · exact .inr ⟨hv, hids, not_not.mp h2, h3, h4, hsm, hprev, hnf, hnew⟩

theorem validate_eq_err1 (output : String) (prev : List String) (key : String)
    (h1 : parse_flag output key ≠ some "YES" ∧ parse_flag output key ≠ some "NO") :
    validate_agent_contract output prev key =
      (some ("missing or invalid " ++ key ++ " marker"), none) := by
  unfold validate_agent_contract
  rw [if_pos h1]

theorem validate_eq_noopen (output : String) (prev : List String) (key : String)
    (h1 : ¬(parse_flag output key ≠ some "YES" ∧ parse_flag output key ≠ some "NO"))
    (hof : parse_open_findings output = none) :
    validate_agent_contract output prev key = (some "missing OPEN_FINDINGS marker", none) := by
  unfold validate_agent_contract
  rw [if_neg h1, hof]

theorem validate_eq_after_open (output : String) (prev : List String) (key : String)
    (l : List String)
    (h1 : ¬(parse_flag output key ≠ some "YES" ∧ parse_flag output key ≠ some "NO"))
    (hof : parse_open_findings output = some l) :
    validate_agent_contract output prev key =
      vac_after_open output prev key (parse_flag output key) l := by
  unfold validate_agent_contract
  rw [if_neg h1, hof]

/-- Exhaustive case analysis of `validate_agent_contract`: the result is
either a rejection `(some reason, none)`, or the acceptance
`(none, some open_findings)` together with every guard of the chain. -/
theorem validate_cases (output : String) (prev : List String) (key : String) :
    (∃ e, validate_agent_contract output prev key = (some e, none)) ∨
    (∃ l, parse_open_findings output = some l ∧
      validate_agent_contract output prev key = (none, some l) ∧
      (parse_flag output key = some "YES" ∨ parse_flag output key = some "NO") ∧
      (∀ fid ∈ l, finding_id_matches fid = true) ∧
      l.Nodup ∧
      ¬(parse_flag output key = some "YES" ∧ l ≠ []) ∧
      ¬(parse_flag output key = some "NO" ∧ l = []) ∧
      (∀ p ∈ parse_finding_status_map output, finding_id_matches p.1 = true) ∧
      (∀ fid ∈ prev, dictHas (parse_finding_status_map output) fid = true) ∧
      (∀ p ∈ parse_new_findings output, finding_id_matches p.1 = true) ∧
      (∀ fid ∈ l, prev.contains fid = true ∨
        dictHas (parse_new_findings output) fid = true)) := by
  by_cases h1 : parse_flag output key ≠ some "YES" ∧ parse_flag output key ≠ some "NO"
  · exact .inl ⟨_, validate_eq_err1 output prev key h1⟩
  · have happ : parse_flag output key = some "YES" ∨ parse_flag output key = some "NO" := by
      rcases not_and_or.mp h1 with h | h
      · exact .inl (not_not.mp h)
      · exact .inr (not_not.mp h)
    cases hof : parse_open_findings output with
    | none => exact .inl ⟨_, validate_eq_noopen output prev key h1 hof⟩
    | some l =>
      have heq := validate_eq_after_open output prev key l h1 hof
      rcases vac_after_open_cases output prev key (parse_flag output key) l with
        ⟨e, he⟩ | ⟨hv, hids, hnd, hyes, hno, hsm, hprev, hnf, hnew⟩
      · exact .inl ⟨e, heq.trans he⟩
      · exact .inr ⟨l, rfl, heq.trans hv, happ, hids, hnd, hyes, hno, hsm, hprev, hnf, hnew⟩

/-- Claim C3 (counterexample): the acceptance condition as stated — approval
YES, empty open findings, all previously-open ids status-lined — is not
sufficient: a FINDING_STATUS line with a malformed id is also rejected. -/
theorem c3_counterexample :
    parse_flag "CODEX_APPROVAL: YES\nOPEN_FINDINGS: NONE\nFINDING_STATUS: F-1 | OPEN | x"
      "CODEX_APPROVAL" = some "YES" ∧
    parse_open_findings
      "CODEX_APPROVAL: YES\nOPEN_FINDINGS: NONE\nFINDING_STATUS: F-1 | OPEN | x" = some [] ∧
    (validate_agent_contract
      "CODEX_APPROVAL: YES\nOPEN_FINDINGS: NONE\nFINDING_STATUS: F-1 | OPEN | x"
      [] "CODEX_APPROVAL").1 ≠ none := by
  refine ⟨by decide, by decide, by decide⟩

/-- Direct computation of the acceptance path of the contract validator. -/
theorem validate_accepts (output : String) (prev : List String) (key : String)
    (hyes : parse_flag output key = some "YES")
    (hof0 : parse_open_findings output = some [])
    (hsm0 : ∀ p ∈ parse_finding_status_map output, finding_id_matches p.1 = true)
    (hprev0 : ∀ fid ∈ prev, dictHas (parse_finding_status_map output) fid = true)
    (hnf0 : ∀ p ∈ parse_new_findings output, finding_id_matches p.1 = true) :
    validate_agent_contract output prev key = (none, some []) := by
  have h1 : ¬(parse_flag output key ≠ some "YES" ∧ parse_flag output key ≠ some "NO") := by
    simp [hyes]
  rw [validate_eq_after_open output prev key [] h1 hof0]
  have hf2 : (parse_finding_status_map output).find? (fun p => ! finding_id_matches p.1) = none :=
    List.find?_eq_none.mpr (fun p hp => by simp [hsm0 p hp])
  have hf3 : prev.find? (fun fid => ! dictHas (parse_finding_status_map output) fid) = none :=
    List.find?_eq_none.mpr (fun fid hfid => by simp [hprev0 fid hfid])
  have hf4 : (parse_new_findings output).find? (fun p => ! finding_id_matches p.1) = none :=
    List.find?_eq_none.mpr (fun p hp => by simp [hnf0 p hp])
  simp [vac_after_open, vac_findings, hyes, hf2, hf3, hf4]

/-- Claim C3 (amended): `validate_agent_contract` rejects (non-null reason,
null findings) under each of the six stated conditions, and accepts with
the normalized empty findings list when approval is YES, the open-findings
list is empty, every previously-open id is status-lined, and additionally
every id appearing in a FINDING_STATUS or NEW_FINDING line is well-formed. -/
theorem c3_validate_contract (output : String) (prev : List String) (key : String) :
    ((∃ l, parse_open_findings output = some l ∧
        ∃ fid ∈ l, finding_id_matches fid = false) →
      (validate_agent_contract output prev key).1.isSome = true ∧
      (validate_agent_contract output prev key).2 = none) ∧
    ((∃ l, parse_open_findings output = some l ∧ ¬ l.Nodup) →
      (validate_agent_contract output prev key).1.isSome = true ∧
      (validate_agent_contract output prev key).2 = none) ∧
    ((parse_flag output key = some "YES" ∧
        ∃ l, parse_open_findings output = some l ∧ l ≠ []) →
      (validate_agent_contract output prev key).1.isSome = true ∧
      (validate_agent_contract output prev key).2 = none) ∧
    ((parse_flag output key = some "NO" ∧ parse_open_findings output = some []) →
      (validate_agent_contract output prev key).1.isSome = true ∧
      (validate_agent_contract output prev key).2 = none) ∧
    ((∃ fid ∈ prev, dictHas (parse_finding_status_map output) fid = false) →
      (validate_agent_contract output prev key).1.isSome = true ∧
      (validate_agent_contract output prev key).2 = none) ∧
    ((∃ l, parse_open_findings output = some l ∧
        ∃ fid ∈ l, prev.contains fid = false ∧
          dictHas (parse_new_findings output) fid = false) →
      (validate_agent_contract output prev key).1.isSome = true ∧
      (validate_agent_contract output prev key).2 = none) ∧
    ((parse_flag output key = some "YES" ∧ parse_open_findings output = some [] ∧
        (∀ p ∈ parse_finding_status_map output, finding_id_matches p.1 = true) ∧
        (∀ fid ∈ prev, dictHas (parse_finding_status_map output) fid = true) ∧
        (∀ p ∈ parse_new_findings output, finding_id_matches p.1 = true)) →
      validate_agent_contract output prev key = (none, some [])) := by
  have hside : (∃ e, validate_agent_contract output prev key = (some e, none)) →
      (validate_agent_contract output prev key).1.isSome = true ∧
      (validate_agent_contract output prev key).2 = none := by
    rintro ⟨e, hv⟩
    rw [hv]
    exact ⟨rfl, rfl⟩
  refine ⟨?_, ?_, ?_, ?_, ?_, ?_, ?_⟩
  · rintro ⟨l2, hof2, fid, hfid, hbad⟩
    rcases validate_cases output prev key with h | ⟨l, hof, _, _, hids, _⟩
    · exact hside h
    · rw [hof2] at hof
      cases hof
      exact absurd (hids fid hfid) (by simp [hbad])
  · rintro ⟨l2, hof2, hnd2⟩
    rcases validate_cases output prev key with h | ⟨l, hof, _, _, _, hnd, _⟩
    · exact hside h
    · rw [hof2] at hof
      cases hof
      exact absurd hnd hnd2
  · rintro ⟨hy, l2, hof2, hne⟩
    rcases validate_cases output prev key with h | ⟨l, hof, _, _, _, _, hyes, _⟩
    · exact hside h
    · rw [hof2] at hof
      cases hof
      exact absurd ⟨hy, hne⟩ hyes
  · rintro ⟨hn, hof2⟩
    rcases validate_cases output prev key with h | ⟨l, hof, _, _, _, _, _, hno, _⟩
    · exact hside h
    · rw [hof2] at hof
      cases hof
      exact absurd ⟨hn, rfl⟩ hno
  · rintro ⟨fid, hfid, hmiss⟩
    rcases validate_cases output prev key with h | ⟨l, hof, _, _, _, _, _, _, _, hprev, _⟩
    · exact hside h
    · exact absurd (hprev fid hfid) (by simp [hmiss])
  · rintro ⟨l2, hof2, fid, hfid, hnc, hnh⟩
    rcases validate_cases output prev key with h | ⟨l, hof, _, _, _, _, _, _, _, _, _, hnew⟩
    · exact hside h
    · rw [hof2] at hof
      cases hof
      rcases hnew fid hfid with h | h
      · rw [h] at hnc
        exact absurd hnc (by simp)
      · rw [h] at hnh
        exact absurd hnh (by simp)
  · rintro ⟨hy, hof0, hsm0, hprev0, hnf0⟩
    exact validate_accepts output prev key hy hof0 hsm0 hprev0 hnf0

theorem c3_validate_contract_witness :
    validate_agent_contract
      "FINDING_STATUS: F-001 | CLOSED | fixed\nOPEN_FINDINGS: NONE\nCODEX_APPROVAL: YES"
      ["F-001"] "CODEX_APPROVAL" = (none, some []) ∧
    ((validate_agent_contract "OPEN_FINDINGS: F-001\nCODEX_APPROVAL: YES" [] "CODEX_APPROVAL").1.isSome
      = true) := by
  constructor
  · exact (c3_validate_contract
      "FINDING_STATUS: F-001 | CLOSED | fixed\nOPEN_FINDINGS: NONE\nCODEX_APPROVAL: YES"
      ["F-001"] "CODEX_APPROVAL").2.2.2.2.2.2 ⟨by decide, by decide, by decide, by decide, by decide⟩
  · exact ((c3_validate_contract "OPEN_FINDINGS: F-001\nCODEX_APPROVAL: YES" [] "CODEX_APPROVAL").2.2.1
      ⟨by decide, [ "F-001" ], by decide, by decide⟩).1

@[simp] theorem getPhaseSt_phase1 (st : RunSt) : getPhaseSt st "phase1" = st.phase1 := by
  simp [getPhaseSt]

@[simp] theorem getPhaseSt_phase2 (st : RunSt) : getPhaseSt st "phase2" = st.phase2 := by
  rw [getPhaseSt, if_neg (by decide)]

@[simp] theorem setPhaseSt_phase1 (st : RunSt) (p : PhaseSt) :
    setPhaseSt st "phase1" p = { st with phase1 := p } := by
  simp [setPhaseSt]

@[simp] theorem setPhaseSt_phase2 (st : RunSt) (p : PhaseSt) :
    setPhaseSt st "phase2" p = { st with phase2 := p } := by
  rw [setPhaseSt, if_neg (by decide)]

/-- Every checkpoint written by the phase-2 loop carries the state taken
before the cycle counter was advanced: its snapshot records the previous
cycle number, `key - 1`. -/
theorem run_phase2Go_log_invariant (calls : Int → Phase2CycleCalls) :
    ∀ (fuel : Nat) (cycle maxc : Int) (s : RunSt) (log : List CheckpointWrite),
    s.phase2.cycle = cycle - 1 →
    (∀ w ∈ log, w.phase = "phase2" ∧ w.snapshot.phase2.cycle = w.cycle - 1) →
    ∀ w ∈ (run_phase2Go calls fuel cycle maxc s log).2.2,
      w.phase = "phase2" ∧ w.snapshot.phase2.cycle = w.cycle - 1 := by
  intro fuel
  induction fuel with
  | zero =>
    intro cycle maxc s log hs hlog w hw
    simp only [run_phase2Go] at hw
    exact hlog w hw
  | succ f ih =>
    intro cycle maxc s log hs hlog w hw
    have hlog2 : ∀ w ∈ log ++ [CheckpointWrite.mk "phase2" cycle s],
        w.phase = "phase2" ∧ w.snapshot.phase2.cycle = w.cycle - 1 := by
      intro w hw
      rcases List.mem_append.mp hw with h | h
      · exact hlog w h
      · simp only [List.mem_singleton] at h
        subst h
        exact ⟨rfl, hs⟩
    simp only [run_phase2Go] at hw
    split at hw
    · exact hlog2 w hw
    · exact hlog2 w hw
    · split at hw
      · exact hlog2 w hw
      · exact hlog2 w hw
      · split at hw
        · exact hlog2 w hw
        · exact ih (cycle + 1) maxc _ _ (by simp) hlog2 w hw

theorem run_phase2_log_invariant (calls : Int → Phase2CycleCalls) (st : RunSt) :
    ∀ w ∈ (run_phase2 calls st).2.2,
      w.phase = "phase2" ∧ w.snapshot.phase2.cycle = w.cycle - 1 := by
  intro w hw
  unfold run_phase2 at hw
  exact run_phase2Go_log_invariant calls _ _ _ _ _ (by simp)
    (fun w hw => absurd hw (List.not_mem_nil w)) w hw

/-- Concrete crash-window scenario for recovery: the state as checkpointed
at the start of phase-2 cycle 2 (its cycle field still reads 1). -/
def c4ck2 : RunSt :=
  { init_state 4 6 with
    phase := "phase2"
    phase2 := { (init_state 4 6).phase2 with
      status := "running"
      cycle := 1 } }

/-- The state as checkpointed at the start of phase-2 cycle 3, which equals
the state last persisted before the crash (the save at the end of cycle 2,
with cycle field 2). -/
def c4ck3 : RunSt :=
  { init_state 4 6 with
    phase := "phase2"
    phase2 := { (init_state 4 6).phase2 with
      status := "running"
      cycle := 2 } }

/-- The checkpoint store holding both cycle checkpoints. -/
def c4store (phase : String) (cycle : Int) : Option RunSt :=
  if phase = "phase2" ∧ cycle = 2 then some c4ck2
  else if phase = "phase2" ∧ cycle = 3 then some c4ck3
  else none

/-- Claim C4 (counterexample): after a crash between the cycle-3 checkpoint
write and the subsequent state save, the persisted state still carries
cycle 2 (the checkpoint is written before `phase2["cycle"] = 3` and its
save), so resume restores the checkpoint keyed (phase2, 2) — not the
cycle-3 checkpoint the claim names, which exists and differs. -/
theorem c4_counterexample :
    recover_state_from_checkpoint c4store c4ck3 = c4ck2 ∧
    c4store "phase2" 3 = some c4ck3 ∧
    c4ck2 ≠ c4ck3 := by
  refine ⟨by decide, by decide, by decide⟩

/-- Claim C4 (amended): on resume with a persisted phase of `running` or
`frozen` and a positive cycle, recovery replaces the whole state with the
checkpoint stored under (phase, cycle) when present and keeps the state
otherwise; the guards leave every other state untouched.  Each checkpoint
written by the phase-2 loop snapshots the pre-cycle state (its cycle field
is one less than its key), so after a crash between the cycle-3 checkpoint
write and the subsequent state save the persisted cycle is still 2 and
resume restores the state exactly as checkpointed for cycle 2. -/
theorem c4_recovery (cps : String → Int → Option RunSt) (st ck : RunSt) :
    ((st.phase = "phase1" ∨ st.phase = "phase2") →
      ((getPhaseSt st st.phase).status = "running" ∨
        (getPhaseSt st st.phase).status = "frozen") →
      0 < (getPhaseSt st st.phase).cycle →
      cps st.phase (getPhaseSt st st.phase).cycle = some ck →
      recover_state_from_checkpoint cps st = ck) ∧
    ((st.phase = "phase1" ∨ st.phase = "phase2") →
      ((getPhaseSt st st.phase).status = "running" ∨
        (getPhaseSt st st.phase).status = "frozen") →
      0 < (getPhaseSt st st.phase).cycle →
      cps st.phase (getPhaseSt st st.phase).cycle = none →
      recover_state_from_checkpoint cps st = st) ∧
    ((st.phase ≠ "phase1" ∧ st.phase ≠ "phase2") →
      recover_state_from_checkpoint cps st = st) ∧
    (((getPhaseSt st st.phase).status ≠ "running" ∧
        (getPhaseSt st st.phase).status ≠ "frozen") →
      recover_state_from_checkpoint cps st = st) ∧
    ((getPhaseSt st st.phase).cycle ≤ 0 → recover_state_from_checkpoint cps st = st) ∧
    (∀ (calls : Int → Phase2CycleCalls) (st0 : RunSt) (w : CheckpointWrite),
      w ∈ (run_phase2 calls st0).2.2 →
      w.phase = "phase2" ∧ w.snapshot.phase2.cycle = w.cycle - 1) := by
  refine ⟨?_, ?_, ?_, ?_, ?_, ?_⟩
  · intro hphase hstatus hcyc hcps
    unfold recover_state_from_checkpoint
    rw [if_neg (by tauto), if_neg (by tauto), if_neg (by omega), hcps]
  · intro hphase hstatus hcyc hcps
    unfold recover_state_from_checkpoint
    rw [if_neg (by tauto), if_neg (by tauto), if_neg (by omega), hcps]
  · intro hphase
    unfold recover_state_from_checkpoint
    rw [if_pos hphase]
  · intro hstatus
    unfold recover_state_from_checkpoint
    by_cases hphase : st.phase ≠ "phase1" ∧ st.phase ≠ "phase2"
    · rw [if_pos hphase]
    · rw [if_neg hphase, if_pos hstatus]
  · intro hcyc
    unfold recover_state_from_checkpoint
    by_cases hphase : st.phase ≠ "phase1" ∧ st.phase ≠ "phase2"
    · rw [if_pos hphase]
    · rw [if_neg hphase]
      by_cases hstatus : (getPhaseSt st st.phase).status ≠ "running" ∧
          (getPhaseSt st st.phase).status ≠ "frozen"
      · rw [if_pos hstatus]
      · rw [if_neg hstatus, if_pos hcyc]
  · intro calls st0 w hw
    exact run_phase2_log_invariant calls st0 w hw

theorem c4_recovery_witness :
    recover_state_from_checkpoint c4store c4ck3 = c4ck2 := by
  have h := (c4_recovery c4store c4ck3 c4ck2).1
  exact h (by decide) (by decide) (by decide) (by decide)

/-- The phase-1 loop never decreases the cycle counter: it only assigns the
successive cycle numbers, which exceed the incoming counter. -/
theorem run_phase1Go_cycle_mono (calls : Int → Phase1CycleCalls) :
    ∀ (fuel : Nat) (cycle maxc : Int) (s : RunSt) (log : List CheckpointWrite),
    s.phase1.cycle ≤ cycle - 1 →
    s.phase1.cycle ≤ (run_phase1Go calls fuel cycle maxc s log).1.phase1.cycle := by
  intro fuel
  induction fuel with
  | zero =>
    intro cycle maxc s log hs
    simp [run_phase1Go]
  | succ f ih =>
    intro cycle maxc s log hs
    simp only [run_phase1Go]
    split
    · simp; omega
    · simp; omega
    · split
      · simp; omega
      · simp; omega
      · split
        · simp; omega
        · simp; omega
        · split
          · split
            · simp; omega
            · refine le_trans ?_ (ih (cycle + 1) maxc _ _ ?_)
              · simp; omega
              · simp only [setPhaseSt_phase1, setPhaseSt_phase2, getPhaseSt_phase1,
                  getPhaseSt_phase2]
                omega
          · split
            · simp; omega
            · refine le_trans ?_ (ih (cycle + 1) maxc _ _ ?_)
              · simp; omega
              · simp only [setPhaseSt_phase1, setPhaseSt_phase2, getPhaseSt_phase1,
                  getPhaseSt_phase2]
                omega

theorem run_phase2Go_cycle_mono (calls : Int → Phase2CycleCalls) :
    ∀ (fuel : Nat) (cycle maxc : Int) (s : RunSt) (log : List CheckpointWrite),
    s.phase2.cycle ≤ cycle - 1 →
    s.phase2.cycle ≤ (run_phase2Go calls fuel cycle maxc s log).1.phase2.cycle := by
  intro fuel
  induction fuel with
  | zero =>
    intro cycle maxc s log hs
    simp [run_phase2Go]
  | succ f ih =>
    intro cycle maxc s log hs
    simp only [run_phase2Go]
    split
    · simp; omega
    · simp; omega
    · split
      · simp; omega
      · simp; omega
      · split
        · simp; omega
        · refine le_trans ?_ (ih (cycle + 1) maxc _ _ ?_)
          · simp; omega
          · simp only [setPhaseSt_phase1, setPhaseSt_phase2, getPhaseSt_phase1,
              getPhaseSt_phase2]
            omega

/-- The phase-1 loop writes only the statuses `completed` and `failed`. -/
theorem run_phase1Go_status (calls : Int → Phase1CycleCalls) :
    ∀ (fuel : Nat) (cycle maxc : Int) (s : RunSt) (log : List CheckpointWrite),
    (run_phase1Go calls fuel cycle maxc s log).1.phase1.status = "completed" ∨
    (run_phase1Go calls fuel cycle maxc s log).1.phase1.status = "failed" ∨
    (run_phase1Go calls fuel cycle maxc s log).1.phase1.status = s.phase1.status := by
  intro fuel
  induction fuel with
  | zero =>
    intro cycle maxc s log
    right
    left
    simp [run_phase1Go]
  | succ f ih =>
    intro cycle maxc s log
    simp only [run_phase1Go]
    split
    · right; right; simp
    · right; right; simp
    · split
      · right; right; simp
      · right; right; simp
      · split
        · right; right; simp
        · right; right; simp
        · split
          · split
            · left; simp
            · exact (ih (cycle + 1) maxc _ _).imp_right
                (Or.imp_right (fun h => by rw [h]; simp))
          · split
            · left; simp
            · exact (ih (cycle + 1) maxc _ _).imp_right
                (Or.imp_right (fun h => by rw [h]; simp))

theorem run_phase2Go_status (calls : Int → Phase2CycleCalls) :
    ∀ (fuel : Nat) (cycle maxc : Int) (s : RunSt) (log : List CheckpointWrite),
    (run_phase2Go calls fuel cycle maxc s log).1.phase2.status = "completed" ∨
    (run_phase2Go calls fuel cycle maxc s log).1.phase2.status = "failed" ∨
    (run_phase2Go calls fuel cycle maxc s log).1.phase2.status = s.phase2.status := by
  intro fuel
  induction fuel with
  | zero =>
    intro cycle maxc s log
    right
    left
    simp [run_phase2Go]
  | succ f ih =>
    intro cycle maxc s log
    simp only [run_phase2Go]
    split
    · right; right; simp
    · right; right; simp
    · split
      · right; right; simp
      · right; right; simp
      · split
        · left; simp
        · exact (ih (cycle + 1) maxc _ _).imp_right
            (Or.imp_right (fun h => by rw [h]; simp))

/-- The phase-1 loop changes the run-level phase marker only on completion. -/
theorem run_phase1Go_phase (calls : Int → Phase1CycleCalls) :
    ∀ (fuel : Nat) (cycle maxc : Int) (s : RunSt) (log : List CheckpointWrite),
    (run_phase1Go calls fuel cycle maxc s log).2.1 = PhaseExit.completed ∨
    (run_phase1Go calls fuel cycle maxc s log).1.phase = s.phase := by
  intro fuel
  induction fuel with
  | zero =>
    intro cycle maxc s log
    right
    simp [run_phase1Go]
  | succ f ih =>
    intro cycle maxc s log
    simp only [run_phase1Go]
    split
    · right; simp
    · right; simp
    · split
      · right; simp
      · right; simp
      · split
        · right; simp
        · right; simp
        · split
          · split
            · left; rfl
            · exact (ih (cycle + 1) maxc _ _).imp_right (fun h => by rw [h]; simp)
          · split
            · left; rfl
            · exact (ih (cycle + 1) maxc _ _).imp_right (fun h => by rw [h]; simp)

theorem run_phase2Go_phase (calls : Int → Phase2CycleCalls) :
    ∀ (fuel : Nat) (cycle maxc : Int) (s : RunSt) (log : List CheckpointWrite),
    (run_phase2Go calls fuel cycle maxc s log).2.1 = PhaseExit.completed ∨
    (run_phase2Go calls fuel cycle maxc s log).1.phase = s.phase := by
  intro fuel
  induction fuel with
  | zero =>
    intro cycle maxc s log
    right
    simp [run_phase2Go]
  | succ f ih =>
    intro cycle maxc s log
    simp only [run_phase2Go]
    split
    · right; simp
    · right; simp
    · split
      · right; simp
      · right; simp
      · split
        · left; rfl
        · exact (ih (cycle + 1) maxc _ _).imp_right (fun h => by rw [h]; simp)

/-- Claim C10: the per-phase cycle counter never becomes negative.  Freshly
initialized phases carry cycle 0; the phase loops never decrease the
counter (they only assign successive cycle numbers starting at one past
the stored counter); and the freeze handler decrements only a strictly
positive counter — freezing a phase whose counter is 0 leaves it at 0
while still setting the status to `frozen`. -/
theorem c10_cycle_nonneg :
    (∀ m1 m2 : Int, (init_state m1 m2).phase1.cycle = 0 ∧
      (init_state m1 m2).phase2.cycle = 0) ∧
    (∀ (st : RunSt) (e : QuotaReachedError), st.phase = "phase1" → st.phase1.cycle = 0 →
      (freeze_current_phase st e).phase1.cycle = 0 ∧
      (freeze_current_phase st e).phase1.status = "frozen") ∧
    (∀ (st : RunSt) (e : QuotaReachedError), st.phase = "phase2" → st.phase2.cycle = 0 →
      (freeze_current_phase st e).phase2.cycle = 0 ∧
      (freeze_current_phase st e).phase2.status = "frozen") ∧
    (∀ (st : RunSt) (e : QuotaReachedError), st.phase = "phase1" → 0 ≤ st.phase1.cycle →
      0 ≤ (freeze_current_phase st e).phase1.cycle) ∧
    (∀ (st : RunSt) (e : QuotaReachedError), st.phase = "phase2" → 0 ≤ st.phase2.cycle →
      0 ≤ (freeze_current_phase st e).phase2.cycle) ∧
    (∀ (calls : Int → Phase1CycleCalls) (st : RunSt),
      st.phase1.cycle ≤ (run_phase1 calls st).1.phase1.cycle) ∧
    (∀ (calls : Int → Phase2CycleCalls) (st : RunSt),
      st.phase2.cycle ≤ (run_phase2 calls st).1.phase2.cycle) := by
  refine ⟨?_, ?_, ?_, ?_, ?_, ?_, ?_⟩
  · intro m1 m2
    exact ⟨rfl, rfl⟩
  · intro st e hp hc
    unfold freeze_current_phase
    rw [hp]
    simp [hc]
  · intro st e hp hc
    unfold freeze_current_phase
    rw [hp]
    simp [hc]
  · intro st e hp hc
    unfold freeze_current_phase
    rw [hp]
    by_cases hcy : 0 < st.phase1.cycle
    · simp [hcy]
      omega
    · simp [hcy]
      omega
  · intro st e hp hc
    unfold freeze_current_phase
    rw [hp]
    by_cases hcy : 0 < st.phase2.cycle
    · simp [hcy]
      omega
    · simp [hcy]
      omega
  · intro calls st
    unfold run_phase1
    refine le_trans ?_ (run_phase1Go_cycle_mono calls _ _ _ _ _ (by simp))
    simp
  · intro calls st
    unfold run_phase2
    refine le_trans ?_ (run_phase2Go_cycle_mono calls _ _ _ _ _ (by simp))
    simp

theorem c10_cycle_nonneg_witness :
    (freeze_current_phase (init_state 4 6) ⟨"claude", "HTTP 429"⟩).phase1.cycle = 0 ∧
    (freeze_current_phase (init_state 4 6) ⟨"claude", "HTTP 429"⟩).phase1.status = "frozen" := by
  have h := c10_cycle_nonneg.2.1 (init_state 4 6) ⟨"claude", "HTTP 429"⟩ (by decide) (by decide)
  exact h


/-- Any exit other than the fuel-exhaustion failure leaves the phase-2 loop
with a cycle counter at least the starting cycle number, because every
iteration first stores its cycle number and the counter is never rewound. -/
theorem run_phase2Go_exit_cycle_ge (calls : Int → Phase2CycleCalls) :
    ∀ (fuel : Nat) (cycle maxc : Int) (s : RunSt) (log : List CheckpointWrite),
    (run_phase2Go calls fuel cycle maxc s log).2.1 ≠ PhaseExit.failedMaxCycles →
    cycle ≤ (run_phase2Go calls fuel cycle maxc s log).1.phase2.cycle := by
  intro fuel
  induction fuel with
  | zero =>
    intro cycle maxc s log h
    exact absurd (by simp [run_phase2Go]) h
  | succ f ih =>
    intro cycle maxc s log
    simp only [run_phase2Go]
    split
    · intro _; simp
    · intro _; simp
    · split
      · intro _; simp
      · intro _; simp
      · split
        · intro _; simp
        · intro h
          exact le_trans (by omega) (ih (cycle + 1) maxc _ _ h)

/-- Specialisation: a completed phase-2 loop carries a cycle counter at
least the starting cycle. -/
theorem run_phase2Go_completed_cycle (calls : Int → Phase2CycleCalls)
    (fuel : Nat) (cycle maxc : Int) (s : RunSt) (log : List CheckpointWrite)
    (h : (run_phase2Go calls fuel cycle maxc s log).2.1 = PhaseExit.completed) :
    cycle ≤ (run_phase2Go calls fuel cycle maxc s log).1.phase2.cycle :=
  run_phase2Go_exit_cycle_ge calls fuel cycle maxc s log (by rw [h]; simp)

/-- Claim C1: a phase-2 cycle completes exactly when the three signals hold
together in that cycle — the implementer readiness flag parses to YES, the
test exit code is 0, and the reviewer approval flag parses to YES; when any
signal fails the loop proceeds to the next cycle (a later completion lands
on a strictly larger cycle number), and exhausting the cycle budget sets
the phase-2 status to `failed`. -/
theorem c1_phase2_completion :
    (∀ (calls : Int → Phase2CycleCalls) (f : Nat) (cycle maxc : Int) (st : RunSt)
      (log : List CheckpointWrite) (impl review : String),
      (calls cycle).impl = Except.ok impl →
      (calls cycle).review = Except.ok review →
      (((run_phase2Go calls (f + 1) cycle maxc st log).2.1 = PhaseExit.completed ∧
        (run_phase2Go calls (f + 1) cycle maxc st log).1.phase2.status = "completed" ∧
        (run_phase2Go calls (f + 1) cycle maxc st log).1.phase2.cycle = cycle) ↔
       ((parse_flag impl "IMPLEMENTATION_READY").getD "NO" = "YES" ∧
        ((calls cycle).test).1 = 0 ∧
        (parse_flag review "CLAUDE_APPROVAL").getD "NO" = "YES"))) ∧
    (∀ (calls : Int → Phase2CycleCalls) (cycle maxc : Int) (st : RunSt)
      (log : List CheckpointWrite),
      (run_phase2Go calls 0 cycle maxc st log).1.phase2.status = "failed" ∧
      (run_phase2Go calls 0 cycle maxc st log).2.1 = PhaseExit.failedMaxCycles) := by
  constructor
  · intro calls f cycle maxc st log impl review himpl hreview
    cases hte : (calls cycle).test with
    | mk texit tsnap =>
      simp only [run_phase2Go, himpl, hreview, hte]
      by_cases hcond : ((parse_flag impl "IMPLEMENTATION_READY").getD "NO" = "YES" ∧
          texit = 0 ∧ (parse_flag review "CLAUDE_APPROVAL").getD "NO" = "YES")
      · simp [hcond]
      · rw [if_neg hcond]
        refine iff_of_false (fun hl => ?_) hcond
        obtain ⟨hcomp, -, hcyc⟩ := hl
        have hge := run_phase2Go_completed_cycle calls f (cycle + 1) maxc _ _ hcomp
        rw [hcyc] at hge
        omega
  · intro calls cycle maxc st log
    exact ⟨by simp [run_phase2Go], by simp [run_phase2Go]⟩

theorem c1_phase2_completion_witness :
    (run_phase2Go (fun _ => ⟨Except.ok "IMPLEMENTATION_READY: YES", (0, ""),
        Except.ok "CLAUDE_APPROVAL: YES"⟩) 1 1 4 (init_state 4 6) []).2.1 =
      PhaseExit.completed ∧
    (run_phase2Go (fun _ => ⟨Except.ok "IMPLEMENTATION_READY: YES", (0, ""),
        Except.ok "CLAUDE_APPROVAL: YES"⟩) 1 1 4 (init_state 4 6) []).1.phase2.status =
      "completed" ∧
    (run_phase2Go (fun _ => ⟨Except.ok "IMPLEMENTATION_READY: YES", (0, ""),
        Except.ok "CLAUDE_APPROVAL: YES"⟩) 1 1 4 (init_state 4 6) []).1.phase2.cycle = 1 :=
  (c1_phase2_completion.1 (fun _ => ⟨Except.ok "IMPLEMENTATION_READY: YES", (0, ""),
      Except.ok "CLAUDE_APPROVAL: YES"⟩) 0 1 4 (init_state 4 6) []
    "IMPLEMENTATION_READY: YES" "CLAUDE_APPROVAL: YES" rfl rfl).mpr (by decide)

/-- The closing-marker matcher fails at any position not starting with `<`. -/
theorem matchEndMarker_head_ne {label : List Char} {c : Char} {cs : List Char}
    (h : c ≠ '<') : matchEndMarker label (c :: cs) = none := by
  unfold matchEndMarker expectChars
  simp [h]

/-- The non-greedy search for `<<<TASK_END>>>` skips a `<`-free middle and
stops at the first occurrence of the closing marker. -/
theorem findEndMarker_task (post : List Char) :
    ∀ (mid : List Char), (∀ c ∈ mid, c ≠ '<') →
    findEndMarker ['t', 'a', 's', 'k'] (mid ++ ("<<<TASK_END>>>".data ++ post)) = some post := by
  intro mid
  induction mid with
  | nil =>
    intro _
    rfl
  | cons c cs ih =>
    intro h
    rw [List.cons_append]
    simp only [findEndMarker]
    rw [matchEndMarker_head_ne (h c (by simp))]
    exact ih (fun x hx => h x (by simp [hx]))

/-- Removal of one echoed `TASK` block: the substitution pass deletes the
whole delimited section and leaves the (`<`-free) remainder as is. -/
theorem strip_block (mid post : String)
    (hmid : ∀ c ∈ mid.data, c ≠ '<') (hpost : ∀ c ∈ post.data, c ≠ '<') :
    strip_delimited_sections ("<<<TASK_BEGIN>>>" ++ mid ++ "<<<TASK_END>>>" ++ post) = post := by
  unfold strip_delimited_sections
  have hd : ("<<<TASK_BEGIN>>>" ++ mid ++ "<<<TASK_END>>>" ++ post).data =
      "<<<TASK_BEGIN>>>".data ++ (mid.data ++ ("<<<TASK_END>>>".data ++ post.data)) := by
    simp
  rw [hd]
  have l1 : ("<<<TASK_BEGIN>>>".data).length = 16 := rfl
  have l2 : ("<<<TASK_END>>>".data).length = 14 := rfl
  have hlen :
      ("<<<TASK_BEGIN>>>".data ++ (mid.data ++ ("<<<TASK_END>>>".data ++ post.data))).length =
      (29 + mid.data.length + post.data.length) + 1 := by
    simp only [List.length_append, l1, l2]
    omega
  rw [hlen]
  have htry : tryDelimited
      ("<<<TASK_BEGIN>>>".data ++ (mid.data ++ ("<<<TASK_END>>>".data ++ post.data))) =
      some post.data := by
    have h1 : tryDelimited
        ("<<<TASK_BEGIN>>>".data ++ (mid.data ++ ("<<<TASK_END>>>".data ++ post.data))) =
        findEndMarker ['t', 'a', 's', 'k'] (mid.data ++ ("<<<TASK_END>>>".data ++ post.data)) :=
      rfl
    rw [h1]
    exact findEndMarker_task post.data mid.data hmid
  have hcons : "<<<TASK_BEGIN>>>".data ++ (mid.data ++ ("<<<TASK_END>>>".data ++ post.data)) =
      '<' :: ("<<TASK_BEGIN>>>".data ++ (mid.data ++ ("<<<TASK_END>>>".data ++ post.data))) :=
    rfl
  have htry2 : tryDelimited
      ('<' :: ("<<TASK_BEGIN>>>".data ++ (mid.data ++ ("<<<TASK_END>>>".data ++ post.data)))) =
      some post.data := htry
  rw [hcons]
  simp only [stripGo]
  rw [htry2]
  show String.mk (stripGo (29 + mid.data.length + post.data.length) post.data) = post
  rw [stripGo_fuel _ post.data.length post.data (by omega) (le_refl _)]
  rw [stripGo_no_lt _ _ hpost]

/-- Claim C2: marker extraction first removes every echoed delimited block
and then takes the last surviving occurrence.  An echoed `TASK` block with
arbitrary (`<`-free) content — in particular one claiming
`CODEX_APPROVAL: YES` — is deleted entirely, so a genuine
`CODEX_APPROVAL: NO` line outside any block yields NO; and among several
surviving occurrences of the same key the last one wins. -/
theorem c2_marker_extraction :
    (∀ (mid post : String), (∀ c ∈ mid.data, c ≠ '<') → (∀ c ∈ post.data, c ≠ '<') →
      strip_delimited_sections ("<<<TASK_BEGIN>>>" ++ mid ++ "<<<TASK_END>>>" ++ post) = post) ∧
    (∀ (mid : String), (∀ c ∈ mid.data, c ≠ '<') →
      parse_flag ("<<<TASK_BEGIN>>>" ++ mid ++ "<<<TASK_END>>>" ++ "\nCODEX_APPROVAL: NO\n")
        "CODEX_APPROVAL" = some "NO") ∧
    (∀ (v1 v2 : String), (v1 = "YES" ∨ v1 = "NO") → (v2 = "YES" ∨ v2 = "NO") →
      parse_flag ("CODEX_APPROVAL: " ++ v1 ++ "\nCODEX_APPROVAL: " ++ v2) "CODEX_APPROVAL" =
        some v2) := by
  refine ⟨strip_block, ?_, ?_⟩
  · intro mid hmid
    unfold parse_flag
    rw [strip_block mid "\nCODEX_APPROVAL: NO\n" hmid (by decide)]
    decide
  · intro v1 v2 h1 h2
    rcases h1 with rfl | rfl <;> rcases h2 with rfl | rfl <;> decide

theorem c2_marker_extraction_witness :
    strip_delimited_sections
      ("<<<TASK_BEGIN>>>" ++ "CODEX_APPROVAL: YES" ++ "<<<TASK_END>>>" ++ "outro") = "outro" ∧
    parse_flag ("<<<TASK_BEGIN>>>" ++ "CODEX_APPROVAL: YES" ++ "<<<TASK_END>>>" ++
      "\nCODEX_APPROVAL: NO\n") "CODEX_APPROVAL" = some "NO" ∧
    parse_flag ("CODEX_APPROVAL: " ++ "NO" ++ "\nCODEX_APPROVAL: " ++ "YES") "CODEX_APPROVAL" =
      some "YES" :=
  ⟨c2_marker_extraction.1 "CODEX_APPROVAL: YES" "outro" (by decide) (by decide),
   c2_marker_extraction.2.1 "CODEX_APPROVAL: YES" (by decide),
   c2_marker_extraction.2.2 "NO" "YES" (Or.inr rfl) (Or.inl rfl)⟩

/-- Claim C5: a quota-classified attempt error short-circuits local
retrying.  Without an enabled fallback for the agent the call ends at once
in a terminal quota error naming that agent, independent of the remaining
retry budget; with fallback enabled on `claude` the same call is re-issued
to `gemini` immediately, a contract-valid fallback response sets the sticky
flag, a quota-classified fallback failure ends in a terminal quota error
naming `gemini`, and once the sticky flag is set every later `claude` call
is issued directly against `gemini`. -/
theorem c5_quota_fallback :
    (∀ (oracle : String → Nat → Except String String) (validate : String → Option String)
      (key : String) (cfg : OrchestratorConfig) (errors : List String)
      (attempt remaining : Nat) (exc : String),
      oracle key attempt = Except.error exc →
      is_quota_or_rate_limit_error (shorten exc ERROR_TRUNCATION_LIMIT) = true →
      ¬(cfg.allow_fallback_to_gemini = true ∧ key = "claude") →
      run_agent_checkedGo oracle validate key cfg errors attempt (remaining + 1) =
        (cfg, Except.error (AgentCallErr.quota
          ⟨key, shorten exc ERROR_TRUNCATION_LIMIT⟩))) ∧
    (∀ (oracle : String → Nat → Except String String) (validate : String → Option String)
      (cfg : OrchestratorConfig) (errors : List String) (attempt remaining : Nat)
      (exc out : String),
      cfg.allow_fallback_to_gemini = true →
      oracle "claude" attempt = Except.error exc →
      is_quota_or_rate_limit_error (shorten exc ERROR_TRUNCATION_LIMIT) = true →
      oracle "gemini" attempt = Except.ok out →
      validate out = none →
      run_agent_checkedGo oracle validate "claude" cfg errors attempt (remaining + 1) =
        ({ cfg with claude_quota_reached := true }, Except.ok out)) ∧
    (∀ (oracle : String → Nat → Except String String) (validate : String → Option String)
      (cfg : OrchestratorConfig) (errors : List String) (attempt remaining : Nat)
      (exc fexc : String),
      cfg.allow_fallback_to_gemini = true →
      oracle "claude" attempt = Except.error exc →
      is_quota_or_rate_limit_error (shorten exc ERROR_TRUNCATION_LIMIT) = true →
      oracle "gemini" attempt = Except.error fexc →
      is_quota_or_rate_limit_error (shorten fexc ERROR_TRUNCATION_LIMIT) = true →
      run_agent_checkedGo oracle validate "claude" cfg errors attempt (remaining + 1) =
        ({ cfg with claude_quota_reached := true }, Except.error (AgentCallErr.quota
          ⟨"gemini", shorten fexc ERROR_TRUNCATION_LIMIT⟩))) ∧
    (∀ (cfg : OrchestratorConfig) (max_retries : Nat)
      (oracle : String → Nat → Except String String) (flags : List String)
      (v : Option (String → Option String)),
      cfg.claude_quota_reached = true →
      cfg.allow_fallback_to_gemini = true →
      run_agent_checked cfg "claude" max_retries oracle flags v =
        run_agent_checkedGo oracle (validate_output_contract flags v) "gemini" cfg [] 1
          (max_retries + 1)) := by
  refine ⟨?_, ?_, ?_, ?_⟩
  · intro oracle validate key cfg errors attempt remaining exc hor hq hno
    simp only [run_agent_checkedGo, hor]
    rw [if_neg (fun hh => hno ⟨hh.1, hh.2.1⟩)]
    rw [if_pos hq]
    rw [if_neg (fun hh => hno ⟨hh.2, hh.1⟩)]
  · intro oracle validate cfg errors attempt remaining exc out hfb hor hq hg hv
    simp only [run_agent_checkedGo, hor]
    rw [if_pos ⟨hfb, trivial, hq⟩]
    simp only [hg, hv]
  · intro oracle validate cfg errors attempt remaining exc fexc hfb hor hq hg hfq
    simp only [run_agent_checkedGo, hor]
    rw [if_pos ⟨hfb, trivial, hq⟩]
    simp only [hg]
    rw [if_pos hfq]
  · intro cfg max_retries oracle flags v hq hfb
    unfold run_agent_checked
    rw [if_pos ⟨rfl, hfb, hq⟩]

theorem c5_quota_fallback_witness :
    run_agent_checkedGo (fun _ _ => Except.error "HTTP 429 Too Many Requests") (fun _ => none)
      "codex" ⟨false, false⟩ [] 1 3 =
    (⟨false, false⟩, Except.error (AgentCallErr.quota
      ⟨"codex", shorten "HTTP 429 Too Many Requests" ERROR_TRUNCATION_LIMIT⟩)) :=
  c5_quota_fallback.1 (fun _ _ => Except.error "HTTP 429 Too Many Requests") (fun _ => none)
    "codex" ⟨false, false⟩ [] 1 2 "HTTP 429 Too Many Requests" rfl (by decide) (by decide)

/-- Any exit other than the fuel-exhaustion failure leaves the phase-1 loop
with a cycle counter at least the starting cycle number. -/
theorem run_phase1Go_exit_cycle_ge (calls : Int → Phase1CycleCalls) :
    ∀ (fuel : Nat) (cycle maxc : Int) (s : RunSt) (log : List CheckpointWrite),
    (run_phase1Go calls fuel cycle maxc s log).2.1 ≠ PhaseExit.failedMaxCycles →
    cycle ≤ (run_phase1Go calls fuel cycle maxc s log).1.phase1.cycle := by
  intro fuel
  induction fuel with
  | zero =>
    intro cycle maxc s log h
    exact absurd (by simp [run_phase1Go]) h
  | succ f ih =>
    intro cycle maxc s log
    simp only [run_phase1Go]
    split
    · intro _; simp
    · intro _; simp
    · split
      · intro _; simp
      · intro _; simp
      · split
        · intro _; simp
        · intro _; simp
        · split
          · split
            · intro _; simp
            · intro h
              exact le_trans (by omega) (ih (cycle + 1) maxc _ _ h)
          · split
            · intro _; simp
            · intro h
              exact le_trans (by omega) (ih (cycle + 1) maxc _ _ h)

/-- `run_phase1` can only leave the phase-1 status as `completed`, `failed`
or the `running` it sets on entry. -/
theorem run_phase1_status_cases (calls : Int → Phase1CycleCalls) (st : RunSt) :
    (run_phase1 calls st).1.phase1.status = "completed" ∨
    (run_phase1 calls st).1.phase1.status = "failed" ∨
    (run_phase1 calls st).1.phase1.status = "running" := by
  simp only [run_phase1]
  exact (run_phase1Go_status calls _ _ _ _ _).imp_right
    (Or.imp_right (fun h => h.trans (by simp)))

theorem run_phase2_status_cases (calls : Int → Phase2CycleCalls) (st : RunSt) :
    (run_phase2 calls st).1.phase2.status = "completed" ∨
    (run_phase2 calls st).1.phase2.status = "failed" ∨
    (run_phase2 calls st).1.phase2.status = "running" := by
  simp only [run_phase2]
  exact (run_phase2Go_status calls _ _ _ _ _).imp_right
    (Or.imp_right (fun h => h.trans (by simp)))

/-- Unless it completes, `run_phase1` leaves the run-level phase marker at
the `phase1` it sets on entry. -/
theorem run_phase1_phase_cases (calls : Int → Phase1CycleCalls) (st : RunSt) :
    (run_phase1 calls st).2.1 = PhaseExit.completed ∨
    (run_phase1 calls st).1.phase = "phase1" := by
  simp only [run_phase1]
  exact (run_phase1Go_phase calls _ _ _ _ _).imp_right (fun h => h.trans (by simp))

theorem run_phase2_phase_cases (calls : Int → Phase2CycleCalls) (st : RunSt) :
    (run_phase2 calls st).2.1 = PhaseExit.completed ∨
    (run_phase2 calls st).1.phase = "phase2" := by
  simp only [run_phase2]
  exact (run_phase2Go_phase calls _ _ _ _ _).imp_right (fun h => h.trans (by simp))

/-- Unless the cycle budget was already exhausted, `run_phase1` advances the
phase-1 cycle counter past its starting value. -/
theorem run_phase1_cycle_ge (calls : Int → Phase1CycleCalls) (st : RunSt)
    (h : (run_phase1 calls st).2.1 ≠ PhaseExit.failedMaxCycles) :
    st.phase1.cycle + 1 ≤ (run_phase1 calls st).1.phase1.cycle := by
  simp only [run_phase1] at h ⊢
  refine le_trans ?_ (run_phase1Go_exit_cycle_ge calls _ _ _ _ _ h)
  simp

theorem run_phase2_cycle_ge (calls : Int → Phase2CycleCalls) (st : RunSt)
    (h : (run_phase2 calls st).2.1 ≠ PhaseExit.failedMaxCycles) :
    st.phase2.cycle + 1 ≤ (run_phase2 calls st).1.phase2.cycle := by
  simp only [run_phase2] at h ⊢
  refine le_trans ?_ (run_phase2Go_exit_cycle_ge calls _ _ _ _ _ h)
  simp

/-- Claim C8: a phase reaches status `frozen` only through the pipeline
handler for a propagating quota error; that handler decrements the (always
strictly positive) in-progress cycle counter by one, sets the status to
`frozen`, and records the quota message in the phase error field. -/
theorem c8_freeze_semantics :
    (∀ (calls : Int → Phase1CycleCalls) (st : RunSt),
      (run_phase1_with_freeze calls st).phase1.status = "frozen" →
      ∃ e st1 log, run_phase1 calls st = (st1, PhaseExit.quota e, log)) ∧
    (∀ (calls : Int → Phase2CycleCalls) (st : RunSt),
      (run_phase2_with_freeze calls st).phase2.status = "frozen" →
      ∃ e st2 log, run_phase2 calls st = (st2, PhaseExit.quota e, log)) ∧
    (∀ (st : RunSt) (e : QuotaReachedError), st.phase = "phase1" → 0 < st.phase1.cycle →
      (freeze_current_phase st e).phase1.cycle = st.phase1.cycle - 1 ∧
      (freeze_current_phase st e).phase1.status = "frozen" ∧
      (freeze_current_phase st e).phase1.error = some (quotaMessage e)) ∧
    (∀ (st : RunSt) (e : QuotaReachedError), st.phase = "phase2" → 0 < st.phase2.cycle →
      (freeze_current_phase st e).phase2.cycle = st.phase2.cycle - 1 ∧
      (freeze_current_phase st e).phase2.status = "frozen" ∧
      (freeze_current_phase st e).phase2.error = some (quotaMessage e)) ∧
    (∀ (calls : Int → Phase1CycleCalls) (st st1 : RunSt) (e : QuotaReachedError)
      (log : List CheckpointWrite), 0 ≤ st.phase1.cycle →
      run_phase1 calls st = (st1, PhaseExit.quota e, log) →
      run_phase1_with_freeze calls st = freeze_current_phase st1 e ∧
      0 < st1.phase1.cycle ∧ st1.phase = "phase1") ∧
    (∀ (calls : Int → Phase2CycleCalls) (st st2 : RunSt) (e : QuotaReachedError)
      (log : List CheckpointWrite), 0 ≤ st.phase2.cycle →
      run_phase2 calls st = (st2, PhaseExit.quota e, log) →
      run_phase2_with_freeze calls st = freeze_current_phase st2 e ∧
      0 < st2.phase2.cycle ∧ st2.phase = "phase2") := by
  refine ⟨?_, ?_, ?_, ?_, ?_, ?_⟩
  · intro calls st h
    rcases hrun : run_phase1 calls st with ⟨st1, ex, lg⟩
    have hstat := run_phase1_status_cases calls st
    rw [hrun] at hstat
    unfold run_phase1_with_freeze at h
    rw [hrun] at h
    cases ex with
    | quota e => exact ⟨e, st1, lg, rfl⟩
    | completed =>
      have h2 : st1.phase1.status = "frozen" := h
      rcases hstat with h1 | h1 | h1 <;> exact absurd (h2.symm.trans h1) (by decide)
    | failedMaxCycles =>
      have h2 : st1.phase1.status = "frozen" := h
      rcases hstat with h1 | h1 | h1 <;> exact absurd (h2.symm.trans h1) (by decide)
    | fatal m =>
      have h2 : st1.phase1.status = "frozen" := h
      rcases hstat with h1 | h1 | h1 <;> exact absurd (h2.symm.trans h1) (by decide)
  · intro calls st h
    rcases hrun : run_phase2 calls st with ⟨st2, ex, lg⟩
    have hstat := run_phase2_status_cases calls st
    rw [hrun] at hstat
    unfold run_phase2_with_freeze at h
    rw [hrun] at h
    cases ex with
    | quota e => exact ⟨e, st2, lg, rfl⟩
    | completed =>
      have h2 : st2.phase2.status = "frozen" := h
      rcases hstat with h1 | h1 | h1 <;> exact absurd (h2.symm.trans h1) (by decide)
    | failedMaxCycles =>
      have h2 : st2.phase2.status = "frozen" := h
      rcases hstat with h1 | h1 | h1 <;> exact absurd (h2.symm.trans h1) (by decide)
    | fatal m =>
      have h2 : st2.phase2.status = "frozen" := h
      rcases hstat with h1 | h1 | h1 <;> exact absurd (h2.symm.trans h1) (by decide)
  · intro st e hp hc
    unfold freeze_current_phase
    rw [hp]
    simp only [getPhaseSt, setPhaseSt]
    by_cases hcy : 0 < st.phase1.cycle
    · simp [hcy]
    · exact absurd hc hcy
  · intro st e hp hc
    unfold freeze_current_phase
    rw [hp]
    simp only [getPhaseSt, setPhaseSt]
    by_cases hcy : 0 < st.phase2.cycle
    · simp [hcy]
    · exact absurd hc hcy
  · intro calls st st1 e lg h0 hrun
    refine ⟨?_, ?_, ?_⟩
    · unfold run_phase1_with_freeze
      rw [hrun]
    · have hne : (run_phase1 calls st).2.1 ≠ PhaseExit.failedMaxCycles := by
        rw [hrun]
        simp
      have hge := run_phase1_cycle_ge calls st hne
      rw [hrun] at hge
      have hge2 : st.phase1.cycle + 1 ≤ st1.phase1.cycle := hge
      omega
    · rcases run_phase1_phase_cases calls st with hcm | hph
      · rw [hrun] at hcm
        exact absurd (show PhaseExit.quota e = PhaseExit.completed from hcm) (by simp)
      · rw [hrun] at hph
        exact hph
  · intro calls st st2 e lg h0 hrun
    refine ⟨?_, ?_, ?_⟩
    · unfold run_phase2_with_freeze
      rw [hrun]
    · have hne : (run_phase2 calls st).2.1 ≠ PhaseExit.failedMaxCycles := by
        rw [hrun]
        simp
      have hge := run_phase2_cycle_ge calls st hne
      rw [hrun] at hge
      have hge2 : st.phase2.cycle + 1 ≤ st2.phase2.cycle := hge
      omega
    · rcases run_phase2_phase_cases calls st with hcm | hph
      · rw [hrun] at hcm
        exact absurd (show PhaseExit.quota e = PhaseExit.completed from hcm) (by simp)
      · rw [hrun] at hph
        exact hph

theorem c8_freeze_semantics_witness :
    (freeze_current_phase
      { init_state 4 6 with phase1 := { init_phase1_state 4 with cycle := 2 } }
      ⟨"claude", "HTTP 429"⟩).phase1.cycle = 1 ∧
    (freeze_current_phase
      { init_state 4 6 with phase1 := { init_phase1_state 4 with cycle := 2 } }
      ⟨"claude", "HTTP 429"⟩).phase1.status = "frozen" ∧
    (freeze_current_phase
      { init_state 4 6 with phase1 := { init_phase1_state 4 with cycle := 2 } }
      ⟨"claude", "HTTP 429"⟩).phase1.error = some (quotaMessage ⟨"claude", "HTTP 429"⟩) :=
  c8_freeze_semantics.2.2.1
    { init_state 4 6 with phase1 := { init_phase1_state 4 with cycle := 2 } }
    ⟨"claude", "HTTP 429"⟩ rfl (by decide)

end DualOrch
